import Mathlib

/-!
Verification of the reverse-mode automatic-differentiation engine, the vector
utilities and the gradient-descent minimizer of `src/example.js` (the same
program, modulo `var`/`const` style, as `src/unnamed/part_000`).

Modelling choices, stated once:

* JavaScript numbers are IEEE-754 doubles.  Node *values* are modelled as exact
  reals (`ℝ`); every claim about them is arithmetic over the operations the
  code performs.  Node *derivatives* however are modelled over `JsNum`,
  `ℝ` extended with a NaN element, because `aad_calc_derivs` multiplies
  `node.ddparents[i] * node.derivative` where `node.derivative` may still be
  the JavaScript value `undefined`: `undefined * x` is `NaN`, and
  `(NaN || 0)` is `0` (NaN is falsy).  Both quirks are observable in the
  derivative fields and are modelled faithfully.
* The tape (`aad_stack`) is a `List Node`; a node's `parents` are positions in
  that list (the JavaScript objects are referenced; within one session every
  referenced parent is an earlier entry of the stack).
* Thrown strings become `Except String`; the checks are performed at the same
  program points as in the source.
* `Math.log x` is `NaN` exactly when `x < 0` (for `x = 0` it is `-Infinity`,
  which is not NaN, so the `isNaN` guard does not fire); `Math.exp x` is never
  `NaN` for a non-NaN argument (overflow gives `Infinity`).  The guards are
  modelled by those conditions on the exact-real argument.  The value stored
  by `log` at `0` is `-Infinity` in JavaScript; the exact-real model does not
  represent it, and no theorem below asserts the contents of that node.
-/

namespace AadGd

/-- A JavaScript number as it appears in the `derivative` fields: either an
ordinary (exact-real-modelled) number or NaN. -/
inductive JsNum where
  | num : ℝ → JsNum
  | nan : JsNum

/-- JavaScript `+` on `derivative` values: NaN absorbs. -/
def JsNum.add : JsNum → JsNum → JsNum
  | JsNum.num x, JsNum.num y => JsNum.num (x + y)
  | _, _ => JsNum.nan

/-- JavaScript `*` on `derivative` values: NaN absorbs. -/
def JsNum.mul : JsNum → JsNum → JsNum
  | JsNum.num x, JsNum.num y => JsNum.num (x * y)
  | _, _ => JsNum.nan

/-- One AAD node: `{value, parents, ddparents}` records, plus the `derivative`
field that `aad_calc_derivs` later writes (`none` = the field is absent,
JavaScript `undefined`). -/
structure Node where
  value : ℝ
  parents : List Nat
  ddparents : List ℝ
  derivative : Option JsNum

instance : Inhabited Node := ⟨⟨0, [], [], none⟩⟩

/-- The tape `aad_stack`: the ordered list of nodes created since
`aad_begin()`. -/
abbrev Tape := List Node

/-- JavaScript `d || 0` applied to a possibly-absent derivative: `undefined`,
`NaN` and `0` are all falsy and give `0`; any other number is itself. -/
def jsOr0 : Option JsNum → JsNum
  | some (JsNum.num x) => JsNum.num x
  | _ => JsNum.num 0

/-- Reading a possibly-absent derivative in an arithmetic context
(`node.derivative` as a factor): JavaScript coerces `undefined` to `NaN`. -/
def toJs : Option JsNum → JsNum
  | some x => x
  | none => JsNum.nan

/-- `aad_begin()`: resets the tape to empty. -/
def aad_begin : Tape := []

/-- `aad_const(c)`: push `{value: c, parents: [], ddparents: []}`; the result
is (new tape, position of the node). -/
def aad_const (t : Tape) (c : ℝ) : Tape × Nat :=
  (t ++ [{ value := c, parents := [], ddparents := [], derivative := none }], t.length)

/-- `aad_add(node1, node2)`: value is the sum, local derivatives `[1, 1]`. -/
def aad_add (t : Tape) (i j : Nat) : Tape × Nat :=
  (t ++ [{ value := (t.getD i default).value + (t.getD j default).value,
           parents := [i, j], ddparents := [1, 1], derivative := none }], t.length)

/-- `aad_sub(node1, node2)`: value `node1.value - node2.value`, local
derivatives `[1, -1]`. -/
def aad_sub (t : Tape) (i j : Nat) : Tape × Nat :=
  (t ++ [{ value := (t.getD i default).value - (t.getD j default).value,
           parents := [i, j], ddparents := [1, -1], derivative := none }], t.length)

/-- `aad_mul(node1, node2)`: value is the product, local derivatives
`[node2.value, node1.value]`. -/
def aad_mul (t : Tape) (i j : Nat) : Tape × Nat :=
  (t ++ [{ value := (t.getD i default).value * (t.getD j default).value,
           parents := [i, j],
           ddparents := [(t.getD j default).value, (t.getD i default).value],
           derivative := none }], t.length)

/-- `aad_div(node1, node2)`: throws `"Division by 0"` when `node2.value == 0`,
before anything is pushed; otherwise value `node1.value / node2.value`, local
derivatives `[1/node2.value, -node1.value/(node2.value * node2.value)]`. -/
noncomputable def aad_div (t : Tape) (i j : Nat) : Except String (Tape × Nat) :=
  if (t.getD j default).value = 0 then .error "Division by 0"
  else .ok (t ++ [{ value := (t.getD i default).value / (t.getD j default).value,
                    parents := [i, j],
                    ddparents := [1 / (t.getD j default).value,
                      -(t.getD i default).value /
                        ((t.getD j default).value * (t.getD j default).value)],
                    derivative := none }], t.length)

/-- Condition under which `Math.exp(v)` is NaN for a double `v`: never, unless
`v` itself is NaN (overflow yields `Infinity`, not NaN).  The exact-real model
has no NaN inputs, so the condition is empty. -/
def exp_is_nan (_x : ℝ) : Prop := False

instance (x : ℝ) : Decidable (exp_is_nan x) := Decidable.isFalse (fun h => h)

/-- `aad_exp(node)`: computes `Math.exp`, throws on NaN (never fires in the
exact-real model), pushes `{value: e^v, parents: [node], ddparents: [e^v]}`. -/
noncomputable def aad_exp (t : Tape) (i : Nat) : Except String (Tape × Nat) :=
  let x := Real.exp (t.getD i default).value
  if exp_is_nan x then .error "NAN from exp"
  else .ok (t ++ [{ value := x, parents := [i], ddparents := [x],
                    derivative := none }], t.length)

/-- Condition under which `Math.log(v)` is NaN for a non-NaN double `v`:
exactly `v < 0`.  (`Math.log(0)` is `-Infinity`, which is *not* NaN, so the
source's `isNaN` guard does not fire at `0`.) -/
def log_is_nan (v : ℝ) : Prop := v < 0

noncomputable instance (v : ℝ) : Decidable (log_is_nan v) :=
  inferInstanceAs (Decidable (v < 0))

/-- `aad_log(node)`: computes `Math.log`, throws `"NAN from log"` when the
result is NaN (argument `< 0`), otherwise pushes
`{value: ln v, parents: [node], ddparents: [1/v]}`.  (At `v = 0` JavaScript
stores `-Infinity` with local derivative `Infinity`; the exact-real model
reaches this branch but no theorem asserts that node's contents.) -/
noncomputable def aad_log (t : Tape) (i : Nat) : Except String (Tape × Nat) :=
  let v := (t.getD i default).value
  if log_is_nan v then .error "NAN from log"
  else .ok (t ++ [{ value := Real.log v, parents := [i], ddparents := [1 / v],
                    derivative := none }], t.length)

/-- `aad_pow(node1, node2)`: if `node1.value == 0` return `aad_const(0)`;
otherwise `aad_exp(aad_mul(node2, aad_log(node1)))` (the `log` runs first and
its throw propagates). -/
noncomputable def aad_pow (t : Tape) (i j : Nat) : Except String (Tape × Nat) :=
  if (t.getD i default).value = 0 then .ok (aad_const t 0)
  else
    match aad_log t i with
    | .error e => .error e
    | .ok (t1, l) =>
      let m := aad_mul t1 j l
      aad_exp m.1 m.2

/-- `aad_max(node1, node2)`: value `Math.max`, local derivatives
`[node1.value >= node2.value ? 1 : 0, node1.value >= node2.value ? 0 : 1]`. -/
noncomputable def aad_max (t : Tape) (i j : Nat) : Tape × Nat :=
  (t ++ [{ value := max (t.getD i default).value (t.getD j default).value,
           parents := [i, j],
           ddparents := [if (t.getD i default).value ≥ (t.getD j default).value
                           then 1 else 0,
                         if (t.getD i default).value ≥ (t.getD j default).value
                           then 0 else 1],
           derivative := none }], t.length)

/-- One chain-rule update of `aad_calc_derivs`'s inner loop, from node `n` to
the parent recorded in the pair `pd = (parent position, local derivative)`:
`parent.derivative = (parent.derivative || 0) + node.ddparents[i] * node.derivative`.
All reads are from the current tape (`node` and `parent` are live object
references in the source), so `node.derivative` is re-read each step. -/
def chainStep (n : Nat) (t : Tape) (pd : Nat × ℝ) : Tape :=
  let parent := t.getD pd.1 default
  t.set pd.1
    { parent with
      derivative := some ((jsOr0 parent.derivative).add
        ((JsNum.num pd.2).mul (toJs (t.getD n default).derivative))) }

/-- The `(parent, local derivative)` pairs of node `n`: `node.parents[i]`
paired with `node.ddparents[i]`. -/
def pairs (t : Tape) (n : Nat) : List (Nat × ℝ) :=
  (t.getD n default).parents.zip (t.getD n default).ddparents

/-- The inner loop of `aad_calc_derivs` for one node `n`: apply the chain rule
to each of its `(parent, local derivative)` pairs in order. -/
def procNode (t : Tape) (n : Nat) : Tape :=
  (pairs t n).foldl (chainStep n) t

/-- The outer loop of `aad_calc_derivs`: process nodes `n, n-1, ..., 0`. -/
def procDown (t : Tape) : Nat → Tape
  | 0 => procNode t 0
  | n + 1 => procDown (procNode t (n + 1)) n

/-- `aad_stack[aad_stack.length - 1].derivative = 1`. -/
def setOutputDeriv (t : Tape) : Tape :=
  t.set (t.length - 1)
    { t.getD (t.length - 1) default with derivative := some (JsNum.num 1) }

/-- `aad_calc_derivs()`: set the last node's derivative to `1`, then walk the
tape from the top down applying the chain rule to each node's parents. -/
def aad_calc_derivs (t : Tape) : Tape :=
  procDown (setOutputDeriv t) (t.length - 1)

/-! ## Vector utilities -/

/-- `vec_scale(vec, x)`: `vec.map(y => x * y)`. -/
def vec_scale (vec : List ℝ) (x : ℝ) : List ℝ :=
  vec.map (fun y => x * y)

/-- `vec_add(vec1, vec2)`: throws `"unequal vector sizes"` on a length
mismatch; otherwise `vec1.map((x,i) => x + vec2[i])`, which with the guard
passed is exactly the element-wise sum `zipWith (+)`. -/
def vec_add (vec1 vec2 : List ℝ) : Except String (List ℝ) :=
  if vec1.length ≠ vec2.length then .error "unequal vector sizes"
  else .ok (List.zipWith (fun x y => x + y) vec1 vec2)

/-- `vec_norm(vec)`: `sqrt` of the running sum `t += vec[i] * vec[i]`. -/
noncomputable def vec_norm (vec : List ℝ) : ℝ :=
  Real.sqrt (vec.foldl (fun s x => s + x * x) 0)

/-- `vec_equal(vec1, vec2)`: `false` on a length mismatch, else element-wise
exact comparison (the source loop returns `false` at the first index where
`vec1[i] != vec2[i]`, `true` if none). -/
noncomputable def vec_equal (vec1 vec2 : List ℝ) : Bool :=
  if vec1.length ≠ vec2.length then false
  else decide (∀ i, i < vec1.length → vec1.getD i 0 = vec2.getD i 0)

/-! ## Gradient-descent minimizer

The two `while(true)` loops are modelled with an explicit fuel parameter;
`none` means the fuel ran out (the source loop is still running), `some`
carries the JavaScript outcome: `.ok` a returned value, `.error` a thrown
string (`vec_add`'s length mismatch is the only throw the minimizer itself can
surface, besides whatever the objective would throw — objectives are modelled
as total functions, matching the claims' scope of non-raising objectives). -/

/-- The inner backtracking loop: compute
`new_x = vec_add(x, vec_scale(direction, step / norm))`, `new_y = f(new_x)[0]`,
break with `(new_x, step)` when `y - new_y > .1 * step * norm` or
`vec_equal(x, new_x)`; otherwise halve `step` and retry. -/
noncomputable def gd_inner (f : List ℝ → ℝ × List ℝ) (x : List ℝ) (y : ℝ)
    (direction : List ℝ) (norm : ℝ) :
    ℝ → Nat → Option (Except String (List ℝ × ℝ))
  | _, 0 => none
  | step, fuel + 1 =>
    match vec_add x (vec_scale direction (step / norm)) with
    | .error e => some (.error e)
    | .ok new_x =>
      let new_y := (f new_x).1
      if y - new_y > (0.1 : ℝ) * step * norm ∨ vec_equal x new_x = true then
        some (.ok (new_x, step))
      else
        gd_inner f x y direction norm (step * (0.5 : ℝ)) fuel

/-- The outer loop: evaluate `(y, dy) = f(x)`, set
`direction = vec_scale(dy, -1)` and `norm = vec_norm(direction)`, increment
`iter`, return `x` when `step * norm <= 1e-15 * |y|` or `iter >= max_iter`;
otherwise run the backtracking loop, then continue with `step * 1.1` and the
accepted point. -/
noncomputable def gd_outer (f : List ℝ → ℝ × List ℝ) :
    List ℝ → ℝ → Nat → Nat → Nat → Option (Except String (List ℝ))
  | _, _, _, _, 0 => none
  | x, step, iter, max_iter, fuel + 1 =>
    let y := (f x).1
    let direction := vec_scale (f x).2 (-1)
    let norm := vec_norm direction
    if step * norm ≤ (1e-15 : ℝ) * |y| ∨ max_iter ≤ iter + 1 then some (.ok x)
    else
      match gd_inner f x y direction norm step fuel with
      | none => none
      | some (.error e) => some (.error e)
      | some (.ok (new_x, step')) =>
        gd_outer f new_x (step' * (1.1 : ℝ)) (iter + 1) max_iter fuel

/-- `gradient_descent_minimize(f, guess, max_iter)`: `iter = 0`, `step = 1`,
`x = guess`, then the outer loop, with `fuel` bounding how many loop steps the
model unfolds. -/
noncomputable def gradient_descent_minimize (f : List ℝ → ℝ × List ℝ)
    (guess : List ℝ) (max_iter fuel : Nat) : Option (Except String (List ℝ)) :=
  gd_outer f guess 1 0 max_iter fuel

/-- The same outer loop with a division-by-zero check in front of the inner
loop: before any `step / norm` is formed it stops with the (otherwise unused)
error string `"division by zero on norm"` unless `0 < norm`.  Agreement with
`gd_outer` states that the division is never reached with `norm = 0` (nor with
a negative `norm`). -/
noncomputable def gd_outer_checked (f : List ℝ → ℝ × List ℝ) :
    List ℝ → ℝ → Nat → Nat → Nat → Option (Except String (List ℝ))
  | _, _, _, _, 0 => none
  | x, step, iter, max_iter, fuel + 1 =>
    let y := (f x).1
    let direction := vec_scale (f x).2 (-1)
    let norm := vec_norm direction
    if step * norm ≤ (1e-15 : ℝ) * |y| ∨ max_iter ≤ iter + 1 then some (.ok x)
    else if ¬ (0 < norm) then some (.error "division by zero on norm")
    else
      match gd_inner f x y direction norm step fuel with
      | none => none
      | some (.error e) => some (.error e)
      | some (.ok (new_x, step')) =>
        gd_outer_checked f new_x (step' * (1.1 : ℝ)) (iter + 1) max_iter fuel

/-- `gradient_descent_minimize` with the `norm`-positivity check. -/
noncomputable def gradient_descent_minimize_checked (f : List ℝ → ℝ × List ℝ)
    (guess : List ℝ) (max_iter fuel : Nat) : Option (Except String (List ℝ)) :=
  gd_outer_checked f guess 1 0 max_iter fuel

/-! ## Well-formedness -/

/-- Tape well-formedness: every node pairs each parent with one local
derivative (`parents.length = ddparents.length`) and every parent sits at a
strictly earlier tape position than the node itself. -/
def TapeWF (t : Tape) : Prop :=
  ∀ n, n < t.length →
    (t.getD n default).parents.length = (t.getD n default).ddparents.length ∧
    ∀ p ∈ (t.getD n default).parents, p < n

/-- A tape none of whose `derivative` fields has been written yet (the state
in which every construction-only session leaves the tape). -/
def FreshTape (t : Tape) : Prop :=
  ∀ n, n < t.length → (t.getD n default).derivative = none

/-! ## The chain-rule derivative, reachability, and spec-side descriptions -/

/-- The real number a `derivative` field holds for the purpose of
`(d || 0)`: the number itself, `0` for NaN or an absent field. -/
def jsOr0R : Option JsNum → ℝ
  | some (JsNum.num x) => x
  | _ => 0

/-- Total local derivative a pair list records against parent position `p`
(summed, since a parent may occur in several pairs, e.g. `multiply(a,a)`). -/
def weightIn (L : List (Nat × ℝ)) (p : Nat) : ℝ :=
  L.foldr (fun pd s => if pd.1 = p then pd.2 + s else s) 0

/-- The total local derivative `∂c/∂p` node `c` records against node `p`. -/
def childWeight (t : Tape) (c p : Nat) : ℝ :=
  weightIn (pairs t c) p

/-- The exact chain-rule (adjoint) derivative of the tape's output — its last
node — with respect to node `i`: `1` at the output, otherwise
`∑ over later nodes c of (∂c/∂i) * cd c`, the multivariate chain rule, which
sums the contributions of every path from `i` to the output. -/
def cd (t : Tape) (i : Nat) : ℝ :=
  if i = t.length - 1 then 1
  else ∑ c ∈ (Finset.Ico (i + 1) t.length).attach,
    childWeight t c.1 i * cd t c.1
termination_by t.length - i
decreasing_by
  have := Finset.mem_Ico.mp c.2
  omega

/-- Positions reachable from the output position `out` by following parent
links: `out` itself, and every parent of a reachable node. -/
inductive Reach (t : Tape) (out : Nat) : Nat → Prop
  | refl : Reach t out out
  | step {c p : Nat} : Reach t out c → p ∈ (t.getD c default).parents →
      Reach t out p

/-- `s` has the same length and the same `value`/`parents`/`ddparents` fields
as `t` (only derivative fields may differ — all the backward pass touches). -/
def sameSkeleton (t s : Tape) : Prop :=
  s.length = t.length ∧ ∀ q, q < t.length →
    (s.getD q default).value = (t.getD q default).value ∧
    (s.getD q default).parents = (t.getD q default).parents ∧
    (s.getD q default).ddparents = (t.getD q default).ddparents

/-- Node `p` has a child at a position `≥ m` of tape `t`. -/
def hasChildGe (t : Tape) (m p : Nat) : Prop :=
  ∃ c, m ≤ c ∧ c < t.length ∧ p ∈ (t.getD c default).parents

/-- Chain-rule contributions to node `p` from all nodes at positions `≥ m`. -/
def sumContrib (t : Tape) (m p : Nat) : ℝ :=
  ∑ c ∈ Finset.Ico m t.length, childWeight t c p * cd t c

/-- Loop invariant of the backward pass over the original tape `t`: before
processing position `m - 1` (all positions `≥ m` done), the state `s` has the
skeleton of `t`, the output node (last position) holds derivative `1`, and
every other node holds exactly the contributions of its already-processed
children — `none` if it has none of those. -/
def CalcInv (t : Tape) (m : Nat) (s : Tape) : Prop :=
  sameSkeleton t s ∧
  (s.getD (t.length - 1) default).derivative = some (JsNum.num 1) ∧
  ∀ p, p < t.length → p ≠ t.length - 1 →
    (hasChildGe t m p →
      (s.getD p default).derivative = some (JsNum.num (sumContrib t m p))) ∧
    (¬ hasChildGe t m p → (s.getD p default).derivative = none)

/-- One chain-rule update as the spec describes it, with the node's own
derivative `dn` read once up front: the parent's prior derivative (absent or
NaN read as `0`) plus `local derivative * dn`. -/
def descStep (dn : JsNum) (s : Tape) (pd : Nat × ℝ) : Tape :=
  s.set pd.1
    { s.getD pd.1 default with
      derivative := some ((jsOr0 (s.getD pd.1 default).derivative).add
        ((JsNum.num pd.2).mul dn)) }

/-- Processing of one node as the spec describes the backward pass: read the
node's derivative (absent reads as NaN, JavaScript's `undefined` arithmetic),
then fold the chain-rule update over its `(parent, local derivative)` pairs. -/
def descNode (s : Tape) (n : Nat) : Tape :=
  (pairs s n).foldl (descStep (toJs (s.getD n default).derivative)) s

/-- The backward pass as the (amended) spec sentence describes it: set the
last node's derivative to `1`, then fold node processing over the positions
in strict reverse creation order. -/
def calc_derivs_desc (t : Tape) : Tape :=
  (List.range t.length).reverse.foldl descNode (setOutputDeriv t)

/-- One chain-rule update as claim C2's words have it, reading *every* absent
derivative as `0`: the node's own absent derivative contributes
`local derivative * 0`, not NaN. -/
def claimStep (dn : JsNum) (s : Tape) (pd : Nat × ℝ) : Tape :=
  s.set pd.1
    { s.getD pd.1 default with
      derivative := some ((jsOr0 (s.getD pd.1 default).derivative).add
        ((JsNum.num pd.2).mul dn)) }

/-- Node processing under claim C2's absent-as-zero reading: the node's own
derivative is read through `|| 0` semantics (absent ↦ 0) instead of through
JavaScript's `undefined` arithmetic (absent ↦ NaN). -/
def claimNode (s : Tape) (n : Nat) : Tape :=
  (pairs s n).foldl (claimStep (jsOr0 (s.getD n default).derivative)) s

/-- The backward pass as claim C2 states it, treating an absent prior
derivative as `0` everywhere. -/
def calc_derivs_claim (t : Tape) : Tape :=
  (List.range t.length).reverse.foldl claimNode (setOutputDeriv t)

/-- The diamond-dependency example of C1: `a = constant(v)`,
`y = add(multiply(a, a), a)`; `a` sits at position 0, `multiply(a,a)` at 1,
the output `y` at 2. -/
def diamondTape (v : ℝ) : Tape :=
  (aad_add (aad_mul (aad_const aad_begin v).1 0 0).1 1 0).1

/-- A session with a dangling intermediate: `a = constant(v)`, the *unused*
`u = add(a, a)`, and the output `y = multiply(a, a)` created last.  Every
node here is a legitimate construction; `u` simply does not feed the
output. -/
def danglingTape (v : ℝ) : Tape :=
  (aad_mul (aad_add (aad_const aad_begin v).1 0 0).1 0 0).1

/-! ## List helper lemmas -/

theorem getD_set_eq {α : Type} (l : List α) (p : Nat) (a d : α)
    (h : p < l.length) : (l.set p a).getD p d = a := by
  simp [List.getD_eq_getElem?_getD, List.getElem?_set, h]

theorem getD_set_ne {α : Type} (l : List α) (p q : Nat) (a d : α)
    (h : p ≠ q) : (l.set p a).getD q d = l.getD q d := by
  simp [List.getD_eq_getElem?_getD, List.getElem?_set, h]

theorem getD_append_last {α : Type} (l : List α) (x d : α) :
    (l ++ [x]).getD l.length d = x := by
  simp [List.getD_append_right l [x] d l.length le_rfl]

/-! ## Arithmetic of `JsNum` and pair-list weights -/

theorem jsOr0_eq_num (d : Option JsNum) : jsOr0 d = JsNum.num (jsOr0R d) := by
  cases d with
  | none => rfl
  | some x => cases x <;> rfl

theorem jsOr0R_some_num (x : ℝ) : jsOr0R (some (JsNum.num x)) = x := rfl

theorem num_add_num (x y : ℝ) :
    (JsNum.num x).add (JsNum.num y) = JsNum.num (x + y) := rfl

theorem num_mul_num (x y : ℝ) :
    (JsNum.num x).mul (JsNum.num y) = JsNum.num (x * y) := rfl

theorem weightIn_nil (p : Nat) : weightIn [] p = 0 := rfl

theorem weightIn_cons (pd : Nat × ℝ) (L : List (Nat × ℝ)) (p : Nat) :
    weightIn (pd :: L) p =
      if pd.1 = p then pd.2 + weightIn L p else weightIn L p := rfl

theorem weightIn_eq_zero (L : List (Nat × ℝ)) (p : Nat)
    (h : p ∉ L.map Prod.fst) : weightIn L p = 0 := by
  induction L with
  | nil => rfl
  | cons pd L ih =>
    simp only [List.map_cons, List.mem_cons, not_or] at h
    rw [weightIn_cons, if_neg (fun he => h.1 he.symm), ih h.2]

theorem childWeight_eq_zero (t : Tape) (c p : Nat)
    (h : p ∉ (t.getD c default).parents)
    (hlen : (t.getD c default).parents.length =
      (t.getD c default).ddparents.length) : childWeight t c p = 0 := by
  refine weightIn_eq_zero _ _ ?_
  rw [pairs, List.map_fst_zip _ _ (le_of_eq hlen)]
  exact h

/-! ## The backward pass: inner-loop characterisation -/

/-- Effect of folding the live chain-rule update for node `n` over a pair
list `L`, provided every pair's parent is on the tape and is not `n` itself,
and node `n` currently holds the numeric derivative `w`: node `n` is
untouched, parents outside `L` are untouched, and a parent `q` in `L` ends
with `(q's prior derivative through || 0) + (total weight of q in L) * w`. -/
theorem foldl_chainStep_spec (n : Nat) (w : ℝ) (L : List (Nat × ℝ)) :
    ∀ s : Tape, (∀ pd ∈ L, pd.1 < s.length ∧ pd.1 ≠ n) →
    (s.getD n default).derivative = some (JsNum.num w) →
    (L.foldl (chainStep n) s).length = s.length ∧
    ∀ q, (q ∉ L.map Prod.fst →
        (L.foldl (chainStep n) s).getD q default = s.getD q default) ∧
      (q ∈ L.map Prod.fst →
        (L.foldl (chainStep n) s).getD q default =
          { s.getD q default with
            derivative := some (JsNum.num
              (jsOr0R (s.getD q default).derivative + weightIn L q * w)) }) := by
  induction L with
  | nil =>
    intro s _ _
    exact ⟨rfl, fun q => ⟨fun _ => rfl, fun hq => absurd hq (by simp)⟩⟩
  | cons pd L ih =>
    intro s hL hdn
    have hpd := hL pd (List.mem_cons_self pd L)
    have hs' : List.foldl (chainStep n) s (pd :: L) =
        List.foldl (chainStep n) (chainStep n s pd) L := rfl
    have hlen' : (chainStep n s pd).length = s.length := by
      simp [chainStep, List.length_set]
    have hn' : ((chainStep n s pd).getD n default) = s.getD n default := by
      rw [chainStep]
      exact getD_set_ne _ _ _ _ _ (fun he => hpd.2 he)
    have hL' : ∀ pd' ∈ L, pd'.1 < (chainStep n s pd).length ∧ pd'.1 ≠ n := by
      intro pd' hmem
      rw [hlen']
      exact hL pd' (List.mem_cons_of_mem pd hmem)
    have hstep : (chainStep n s pd).getD pd.1 default =
        { s.getD pd.1 default with
          derivative := some (JsNum.num
            (jsOr0R (s.getD pd.1 default).derivative + pd.2 * w)) } := by
      rw [chainStep, getD_set_eq _ _ _ _ hpd.1, hdn, jsOr0_eq_num]
      rfl
    have hother : ∀ q, q ≠ pd.1 →
        (chainStep n s pd).getD q default = s.getD q default := by
      intro q hq
      rw [chainStep]
      exact getD_set_ne _ _ _ _ _ (fun he => hq he.symm)
    obtain ⟨ihlen, ihq⟩ := ih (chainStep n s pd) hL' (by rw [hn']; exact hdn)
    refine ⟨by rw [hs', ihlen, hlen'], fun q => ⟨fun hq => ?_, fun hq => ?_⟩⟩
    · simp only [List.map_cons, List.mem_cons, not_or] at hq
      rw [hs', (ihq q).1 hq.2, hother q hq.1]
    · by_cases hql : q ∈ L.map Prod.fst
      · rw [hs', (ihq q).2 hql]
        by_cases hqp : q = pd.1
        · subst hqp
          rw [hstep, weightIn_cons, if_pos rfl]
          simp only [jsOr0R_some_num]
          ring_nf
        · rw [hother q hqp, weightIn_cons, if_neg (fun he => hqp he.symm)]
      · have hqp : q = pd.1 := by
          simp only [List.map_cons, List.mem_cons] at hq
          rcases hq with h | h
          · exact h
          · exact absurd h hql
        subst hqp
        rw [hs', (ihq pd.1).1 hql, hstep, weightIn_cons, if_pos rfl,
          weightIn_eq_zero L pd.1 hql]
        ring_nf

/-! ## Reachability, the chain-rule derivative, and the invariant pieces -/

theorem Reach_le (t : Tape) (out i : Nat) (hWF : TapeWF t)
    (hout : out < t.length) (h : Reach t out i) : i ≤ out := by
  induction h with
  | refl => exact le_rfl
  | step hr hp ih =>
    rename_i c p
    have hc : c < t.length := lt_of_le_of_lt ih hout
    exact le_of_lt (lt_of_lt_of_le ((hWF c hc).2 p hp) ih)

theorem Reach_hasChild (t : Tape) (out i : Nat) (hWF : TapeWF t)
    (hout : out < t.length) (h : Reach t out i) (hne : i ≠ out) :
    ∃ c, i < c ∧ c < t.length ∧ i ∈ (t.getD c default).parents := by
  cases h with
  | refl => exact absurd rfl hne
  | step hr hp =>
    rename_i c
    have hc : c < t.length :=
      lt_of_le_of_lt (Reach_le t out c hWF hout hr) hout
    exact ⟨c, (hWF c hc).2 _ hp, hc, hp⟩

theorem cd_last (t : Tape) : cd t (t.length - 1) = 1 := by
  rw [cd, if_pos rfl]

theorem cd_eq_sumContrib (t : Tape) (n : Nat) (hne : n ≠ t.length - 1) :
    cd t n = sumContrib t (n + 1) n := by
  rw [cd, if_neg hne, sumContrib]
  exact Finset.sum_attach (Finset.Ico (n + 1) t.length)
    (fun c => childWeight t c n * cd t c)

theorem sumContrib_succ (t : Tape) (n p : Nat) (hn : n < t.length) :
    sumContrib t n p = childWeight t n p * cd t n + sumContrib t (n + 1) p := by
  rw [sumContrib, sumContrib, ← Nat.Ico_insert_succ_left hn,
    Finset.sum_insert (by simp)]

theorem sumContrib_zero_eq_cd (t : Tape) (hWF : TapeWF t) (i : Nat)
    (hne : i ≠ t.length - 1) : sumContrib t 0 i = cd t i := by
  rw [cd_eq_sumContrib t i hne, sumContrib, sumContrib]
  symm
  refine Finset.sum_subset (Finset.Ico_subset_Ico (Nat.zero_le _) le_rfl) ?_
  intro c hc hc'
  have hcl : c < t.length := (Finset.mem_Ico.mp hc).2
  have hci : ¬ (i + 1 ≤ c) := fun hle =>
    hc' (Finset.mem_Ico.mpr ⟨hle, hcl⟩)
  have hnotmem : i ∉ (t.getD c default).parents := fun hmem =>
    hci (Nat.succ_le_of_lt ((hWF c hcl).2 i hmem))
  rw [childWeight_eq_zero t c i hnotmem (hWF c hcl).1, zero_mul]

theorem sumContrib_zero_of_no_child (t : Tape) (hWF : TapeWF t) (m p : Nat)
    (h : ¬ hasChildGe t m p) : sumContrib t m p = 0 := by
  rw [sumContrib]
  refine Finset.sum_eq_zero ?_
  intro c hc
  have hcl := Finset.mem_Ico.mp hc
  have hnot : p ∉ (t.getD c default).parents := fun hmem =>
    h ⟨c, hcl.1, hcl.2, hmem⟩
  rw [childWeight_eq_zero t c p hnot (hWF c hcl.2).1, zero_mul]

theorem pairs_skeleton (t s : Tape) (h : sameSkeleton t s) (n : Nat) :
    pairs s n = pairs t n := by
  by_cases hn : n < t.length
  · obtain ⟨-, hpar, hdd⟩ := h.2 n hn
    rw [pairs, pairs, hpar, hdd]
  · have h1 : s.getD n default = default :=
      List.getD_eq_default _ _ (by rw [h.1]; omega)
    have h2 : t.getD n default = default :=
      List.getD_eq_default _ _ (by omega)
    rw [pairs, pairs, h1, h2]

theorem hasChildGe_succ (t : Tape) (n p : Nat)
    (hnp : p ∉ (t.getD n default).parents) :
    hasChildGe t n p ↔ hasChildGe t (n + 1) p := by
  constructor
  · rintro ⟨c, hm, hc, hmem⟩
    rcases Nat.eq_or_lt_of_le hm with he | hlt
    · exact absurd (he ▸ hmem) hnp
    · exact ⟨c, hlt, hc, hmem⟩
  · rintro ⟨c, hm, hc, hmem⟩
    exact ⟨c, le_trans (Nat.le_succ n) hm, hc, hmem⟩

/-- Processing node `n` moves the backward-pass invariant threshold from
`n + 1` down to `n`: the node pushes `local derivative * (its own chain-rule
derivative)` to each of its parents, provided every node that has parents
either is the output or reaches it. -/
theorem procNode_inv (t : Tape) (hWF : TapeWF t)
    (hreach : ∀ i, i < t.length → i ≠ t.length - 1 →
      (t.getD i default).parents ≠ [] → Reach t (t.length - 1) i)
    (n : Nat) (hn : n < t.length) (s : Tape)
    (hinv : CalcInv t (n + 1) s) : CalcInv t n (procNode s n) := by
  obtain ⟨hskel, hout, hp⟩ := hinv
  have hps : pairs s n = pairs t n := pairs_skeleton t s hskel n
  have hlenWF := (hWF n hn).1
  have hparWF := (hWF n hn).2
  have hmapfst : (pairs t n).map Prod.fst = (t.getD n default).parents := by
    rw [pairs]
    exact List.map_fst_zip _ _ (le_of_eq hlenWF)
  by_cases hpar : (t.getD n default).parents = []
  · have hpairs_nil : pairs t n = [] := by
      rw [pairs, hpar]
      rfl
    have hid : procNode s n = s := by
      rw [procNode, hps, hpairs_nil]
      rfl
    rw [hid]
    refine ⟨hskel, hout, fun p hplen hpne => ?_⟩
    have hiff := hasChildGe_succ t n p (by rw [hpar]; exact List.not_mem_nil p)
    have hsum : sumContrib t n p = sumContrib t (n + 1) p := by
      rw [sumContrib_succ t n p hn,
        childWeight_eq_zero t n p (by rw [hpar]; exact List.not_mem_nil p)
          hlenWF, zero_mul, zero_add]
    exact ⟨fun hc => by rw [hsum]; exact (hp p hplen hpne).1 (hiff.mp hc),
      fun hc => (hp p hplen hpne).2 (fun hc' => hc (hiff.mpr hc'))⟩
  · have hdn : (s.getD n default).derivative = some (JsNum.num (cd t n)) := by
      by_cases hne : n = t.length - 1
      · rw [hne, cd_last]
        exact hout
      · have hR := hreach n hn hne hpar
        obtain ⟨c, hnc, hcl, hmem⟩ :=
          Reach_hasChild t (t.length - 1) n hWF (by omega) hR hne
        have hchild : hasChildGe t (n + 1) n := ⟨c, hnc, hcl, hmem⟩
        rw [(hp n hn hne).1 hchild, cd_eq_sumContrib t n hne]
    have hcond : ∀ pd ∈ pairs s n, pd.1 < s.length ∧ pd.1 ≠ n := by
      intro pd hmem
      rw [hps] at hmem
      have hfst : pd.1 ∈ (t.getD n default).parents :=
        (List.of_mem_zip hmem).1
      have hlt : pd.1 < n := hparWF pd.1 hfst
      exact ⟨by rw [hskel.1]; exact lt_trans hlt hn, Nat.ne_of_lt hlt⟩
    obtain ⟨hflen, hfq⟩ := foldl_chainStep_spec n (cd t n) (pairs s n) s
      hcond hdn
    have hproc : procNode s n = (pairs s n).foldl (chainStep n) s := rfl
    have hmap : (pairs s n).map Prod.fst = (t.getD n default).parents := by
      rw [hps, hmapfst]
    refine ⟨⟨?_, ?_⟩, ?_, ?_⟩
    · rw [hproc, hflen, hskel.1]
    · intro q hq
      by_cases hqm : q ∈ (t.getD n default).parents
      · have heq := (hfq q).2 (by rw [hmap]; exact hqm)
        rw [hproc, heq]
        obtain ⟨hv, hpq, hdq⟩ := hskel.2 q hq
        exact ⟨hv, hpq, hdq⟩
      · have heq := (hfq q).1 (by rw [hmap]; exact hqm)
        rw [hproc, heq]
        exact hskel.2 q hq
    · have hqout : (t.length - 1) ∉ (t.getD n default).parents := fun hmem =>
        absurd (hparWF _ hmem) (by omega)
      have heq := (hfq (t.length - 1)).1 (by rw [hmap]; exact hqout)
      rw [hproc, heq]
      exact hout
    · intro p hplen hpne
      by_cases hpm : p ∈ (t.getD n default).parents
      · have heq := (hfq p).2 (by rw [hmap]; exact hpm)
        have hchildn : hasChildGe t n p := ⟨n, le_rfl, hn, hpm⟩
        have hwI : weightIn (pairs s n) p = childWeight t n p := by
          rw [hps]
          rfl
        have hprior : jsOr0R (s.getD p default).derivative =
            sumContrib t (n + 1) p := by
          by_cases hc : hasChildGe t (n + 1) p
          · rw [(hp p hplen hpne).1 hc, jsOr0R_some_num]
          · rw [(hp p hplen hpne).2 hc,
              sumContrib_zero_of_no_child t hWF _ _ hc]
            rfl
        constructor
        · intro _
          rw [hproc, heq]
          show some (JsNum.num (jsOr0R (s.getD p default).derivative +
            weightIn (pairs s n) p * cd t n)) =
            some (JsNum.num (sumContrib t n p))
          rw [hprior, hwI, sumContrib_succ t n p hn,
            add_comm (sumContrib t (n + 1) p)]
        · intro hc
          exact absurd hchildn hc
      · have heq := (hfq p).1 (by rw [hmap]; exact hpm)
        have hiff := hasChildGe_succ t n p hpm
        have hsum : sumContrib t n p = sumContrib t (n + 1) p := by
          rw [sumContrib_succ t n p hn,
            childWeight_eq_zero t n p hpm hlenWF, zero_mul, zero_add]
        rw [hproc, heq]
        exact ⟨fun hc => by rw [hsum]; exact (hp p hplen hpne).1 (hiff.mp hc),
          fun hc => (hp p hplen hpne).2 (fun hc' => hc (hiff.mpr hc'))⟩

/-- The downward walk keeps the invariant, ending with threshold `0`. -/
theorem procDown_inv (t : Tape) (hWF : TapeWF t)
    (hreach : ∀ i, i < t.length → i ≠ t.length - 1 →
      (t.getD i default).parents ≠ [] → Reach t (t.length - 1) i) :
    ∀ n, n < t.length → ∀ s, CalcInv t (n + 1) s →
      CalcInv t 0 (procDown s n) := by
  intro n
  induction n with
  | zero =>
    intro hn s hinv
    exact procNode_inv t hWF hreach 0 hn s hinv
  | succ n ih =>
    intro hn s hinv
    exact ih (by omega) (procNode s (n + 1))
      (procNode_inv t hWF hreach (n + 1) hn s hinv)

/-- Setting the output's derivative to `1` establishes the invariant at
threshold `t.length` (nothing processed yet). -/
theorem setOutputDeriv_inv (t : Tape) (hF : FreshTape t)
    (hlen : 0 < t.length) : CalcInv t t.length (setOutputDeriv t) := by
  have hout_lt : t.length - 1 < t.length := by omega
  refine ⟨⟨?_, ?_⟩, ?_, ?_⟩
  · rw [setOutputDeriv, List.length_set]
  · intro q hq
    by_cases hqo : q = t.length - 1
    · subst hqo
      rw [setOutputDeriv, getD_set_eq _ _ _ _ hout_lt]
      exact ⟨rfl, rfl, rfl⟩
    · rw [setOutputDeriv, getD_set_ne _ _ _ _ _ (fun he => hqo he.symm)]
      exact ⟨rfl, rfl, rfl⟩
  · rw [setOutputDeriv, getD_set_eq _ _ _ _ hout_lt]
  · intro p hplen hpne
    constructor
    · rintro ⟨c, hm, hc, -⟩
      omega
    · intro _
      rw [setOutputDeriv, getD_set_ne _ _ _ _ _ (fun he => hpne he.symm)]
      exact hF p hplen

/-! ## C1: the backward pass computes exact chain-rule derivatives -/

/-- C1 (amended): on a freshly built non-empty well-formed tape in which
every node that has parents either is the output (the last node) or feeds
into it, the backward pass gives every node reachable from the output the
exact chain-rule partial derivative `cd` of the output with respect to it —
contributions summed, never overwritten, across multiple paths.  In
particular, for `y = add(multiply(a, a), a)` built from `a = constant(v)`,
`a.derivative` ends as `2*a.value + 1` (the two `multiply` paths plus the
direct `add` path). -/
theorem aad_calc_derivs_exact_on_reachable :
    (∀ t : Tape, TapeWF t → FreshTape t → 0 < t.length →
      (∀ i, i < t.length → i ≠ t.length - 1 →
        (t.getD i default).parents ≠ [] → Reach t (t.length - 1) i) →
      ∀ i, Reach t (t.length - 1) i →
        ((aad_calc_derivs t).getD i default).derivative =
          some (JsNum.num (cd t i))) ∧
    (∀ v : ℝ,
      ((aad_calc_derivs (diamondTape v)).getD 0 default).derivative =
        some (JsNum.num (2 * v + 1))) := by
  constructor
  · intro t hWF hF hlen hreach i hRi
    have hsucc : (t.length - 1) + 1 = t.length := by omega
    have hinv0 : CalcInv t ((t.length - 1) + 1) (setOutputDeriv t) := by
      rw [hsucc]
      exact setOutputDeriv_inv t hF hlen
    obtain ⟨hskel, hout, hp⟩ := procDown_inv t hWF hreach (t.length - 1)
      (by omega) (setOutputDeriv t) hinv0
    by_cases hio : i = t.length - 1
    · subst hio
      rw [aad_calc_derivs, cd_last]
      exact hout
    · have hil : i < t.length :=
        lt_of_le_of_lt (Reach_le t _ i hWF (by omega) hRi) (by omega)
      obtain ⟨c, hic, hcl, hmem⟩ :=
        Reach_hasChild t _ i hWF (by omega) hRi hio
      have hchild : hasChildGe t 0 i := ⟨c, Nat.zero_le c, hcl, hmem⟩
      have hval := (hp i hil hio).1 hchild
      rw [aad_calc_derivs, hval, sumContrib_zero_eq_cd t hWF i hio]
  · intro v
    have h0 : diamondTape v =
        [{ value := v, parents := [], ddparents := [], derivative := none },
         { value := v * v, parents := [0, 0], ddparents := [v, v],
           derivative := none },
         { value := v * v + v, parents := [1, 0], ddparents := [1, 1],
           derivative := none }] := by
      simp [diamondTape, aad_const, aad_mul, aad_add, aad_begin]
    rw [aad_calc_derivs, h0]
    have hs0 : setOutputDeriv
        [{ value := v, parents := [], ddparents := [], derivative := none },
         { value := v * v, parents := [0, 0], ddparents := [v, v],
           derivative := none },
         { value := v * v + v, parents := [1, 0], ddparents := [1, 1],
           derivative := none }] =
        [{ value := v, parents := [], ddparents := [], derivative := none },
         { value := v * v, parents := [0, 0], ddparents := [v, v],
           derivative := none },
         { value := v * v + v, parents := [1, 0], ddparents := [1, 1],
           derivative := some (JsNum.num 1) }] := by
      simp [setOutputDeriv]
    rw [hs0]
    have hpY : pairs
        [{ value := v, parents := [], ddparents := [], derivative := none },
         { value := v * v, parents := [0, 0], ddparents := [v, v],
           derivative := none },
         { value := v * v + v, parents := [1, 0], ddparents := [1, 1],
           derivative := some (JsNum.num 1) }] 2 = [(1, 1), (0, 1)] := rfl
    have e1 : chainStep 2
        [{ value := v, parents := [], ddparents := [], derivative := none },
         { value := v * v, parents := [0, 0], ddparents := [v, v],
           derivative := none },
         { value := v * v + v, parents := [1, 0], ddparents := [1, 1],
           derivative := some (JsNum.num 1) }] (1, 1) =
        [{ value := v, parents := [], ddparents := [], derivative := none },
         { value := v * v, parents := [0, 0], ddparents := [v, v],
           derivative := some (JsNum.num 1) },
         { value := v * v + v, parents := [1, 0], ddparents := [1, 1],
           derivative := some (JsNum.num 1) }] := by
      simp [chainStep, jsOr0, toJs, JsNum.add, JsNum.mul]
    have e2 : chainStep 2
        [{ value := v, parents := [], ddparents := [], derivative := none },
         { value := v * v, parents := [0, 0], ddparents := [v, v],
           derivative := some (JsNum.num 1) },
         { value := v * v + v, parents := [1, 0], ddparents := [1, 1],
           derivative := some (JsNum.num 1) }] (0, 1) =
        [{ value := v, parents := [], ddparents := [],
           derivative := some (JsNum.num 1) },
         { value := v * v, parents := [0, 0], ddparents := [v, v],
           derivative := some (JsNum.num 1) },
         { value := v * v + v, parents := [1, 0], ddparents := [1, 1],
           derivative := some (JsNum.num 1) }] := by
      simp [chainStep, jsOr0, toJs, JsNum.add, JsNum.mul]
    have h2 : procNode
        [{ value := v, parents := [], ddparents := [], derivative := none },
         { value := v * v, parents := [0, 0], ddparents := [v, v],
           derivative := none },
         { value := v * v + v, parents := [1, 0], ddparents := [1, 1],
           derivative := some (JsNum.num 1) }] 2 =
        [{ value := v, parents := [], ddparents := [],
           derivative := some (JsNum.num 1) },
         { value := v * v, parents := [0, 0], ddparents := [v, v],
           derivative := some (JsNum.num 1) },
         { value := v * v + v, parents := [1, 0], ddparents := [1, 1],
           derivative := some (JsNum.num 1) }] := by
      rw [procNode, hpY]
      show chainStep 2 (chainStep 2
        [{ value := v, parents := [], ddparents := [], derivative := none },
         { value := v * v, parents := [0, 0], ddparents := [v, v],
           derivative := none },
         { value := v * v + v, parents := [1, 0], ddparents := [1, 1],
           derivative := some (JsNum.num 1) }] (1, 1)) (0, 1) =
        [{ value := v, parents := [], ddparents := [],
           derivative := some (JsNum.num 1) },
         { value := v * v, parents := [0, 0], ddparents := [v, v],
           derivative := some (JsNum.num 1) },
         { value := v * v + v, parents := [1, 0], ddparents := [1, 1],
           derivative := some (JsNum.num 1) }]
      rw [e1, e2]
    have hpM : pairs
        [{ value := v, parents := [], ddparents := [],
           derivative := some (JsNum.num 1) },
         { value := v * v, parents := [0, 0], ddparents := [v, v],
           derivative := some (JsNum.num 1) },
         { value := v * v + v, parents := [1, 0], ddparents := [1, 1],
           derivative := some (JsNum.num 1) }] 1 = [(0, v), (0, v)] := rfl
    have e3 : chainStep 1
        [{ value := v, parents := [], ddparents := [],
           derivative := some (JsNum.num 1) },
         { value := v * v, parents := [0, 0], ddparents := [v, v],
           derivative := some (JsNum.num 1) },
         { value := v * v + v, parents := [1, 0], ddparents := [1, 1],
           derivative := some (JsNum.num 1) }] (0, v) =
        [{ value := v, parents := [], ddparents := [],
           derivative := some (JsNum.num (1 + v)) },
         { value := v * v, parents := [0, 0], ddparents := [v, v],
           derivative := some (JsNum.num 1) },
         { value := v * v + v, parents := [1, 0], ddparents := [1, 1],
           derivative := some (JsNum.num 1) }] := by
      simp [chainStep, jsOr0, toJs, JsNum.add, JsNum.mul]
    have e4 : chainStep 1
        [{ value := v, parents := [], ddparents := [],
           derivative := some (JsNum.num (1 + v)) },
         { value := v * v, parents := [0, 0], ddparents := [v, v],
           derivative := some (JsNum.num 1) },
         { value := v * v + v, parents := [1, 0], ddparents := [1, 1],
           derivative := some (JsNum.num 1) }] (0, v) =
        [{ value := v, parents := [], ddparents := [],
           derivative := some (JsNum.num (1 + v + v)) },
         { value := v * v, parents := [0, 0], ddparents := [v, v],
           derivative := some (JsNum.num 1) },
         { value := v * v + v, parents := [1, 0], ddparents := [1, 1],
           derivative := some (JsNum.num 1) }] := by
      simp [chainStep, jsOr0, toJs, JsNum.add, JsNum.mul]
    have h3 : procNode
        [{ value := v, parents := [], ddparents := [],
           derivative := some (JsNum.num 1) },
         { value := v * v, parents := [0, 0], ddparents := [v, v],
           derivative := some (JsNum.num 1) },
         { value := v * v + v, parents := [1, 0], ddparents := [1, 1],
           derivative := some (JsNum.num 1) }] 1 =
        [{ value := v, parents := [], ddparents := [],
           derivative := some (JsNum.num (1 + v + v)) },
         { value := v * v, parents := [0, 0], ddparents := [v, v],
           derivative := some (JsNum.num 1) },
         { value := v * v + v, parents := [1, 0], ddparents := [1, 1],
           derivative := some (JsNum.num 1) }] := by
      rw [procNode, hpM]
      show chainStep 1 (chainStep 1
        [{ value := v, parents := [], ddparents := [],
           derivative := some (JsNum.num 1) },
         { value := v * v, parents := [0, 0], ddparents := [v, v],
           derivative := some (JsNum.num 1) },
         { value := v * v + v, parents := [1, 0], ddparents := [1, 1],
           derivative := some (JsNum.num 1) }] (0, v)) (0, v) =
        [{ value := v, parents := [], ddparents := [],
           derivative := some (JsNum.num (1 + v + v)) },
         { value := v * v, parents := [0, 0], ddparents := [v, v],
           derivative := some (JsNum.num 1) },
         { value := v * v + v, parents := [1, 0], ddparents := [1, 1],
           derivative := some (JsNum.num 1) }]
      rw [e3, e4]
    have h4 : procNode
        [{ value := v, parents := [], ddparents := [],
           derivative := some (JsNum.num (1 + v + v)) },
         { value := v * v, parents := [0, 0], ddparents := [v, v],
           derivative := some (JsNum.num 1) },
         { value := v * v + v, parents := [1, 0], ddparents := [1, 1],
           derivative := some (JsNum.num 1) }] 0 =
        [{ value := v, parents := [], ddparents := [],
           derivative := some (JsNum.num (1 + v + v)) },
         { value := v * v, parents := [0, 0], ddparents := [v, v],
           derivative := some (JsNum.num 1) },
         { value := v * v + v, parents := [1, 0], ddparents := [1, 1],
           derivative := some (JsNum.num 1) }] := rfl
    show ((procNode (procNode (procNode
        [{ value := v, parents := [], ddparents := [], derivative := none },
         { value := v * v, parents := [0, 0], ddparents := [v, v],
           derivative := none },
         { value := v * v + v, parents := [1, 0], ddparents := [1, 1],
           derivative := some (JsNum.num 1) }] 2) 1) 0).getD 0
      default).derivative = some (JsNum.num (2 * v + 1))
    rw [h2, h3, h4]
    have hfin : (1 : ℝ) + v + v = 2 * v + 1 := by ring
    simp [hfin]

/-- Witness for C1: on the concrete diamond tape with `a = constant(3)`, the
output's derivative is `1` and `a.derivative` is `2*3 + 1 = 7`. -/
theorem aad_calc_derivs_exact_on_reachable_witness :
    ((aad_calc_derivs (diamondTape 3)).getD 2 default).derivative =
      some (JsNum.num 1) ∧
    ((aad_calc_derivs (diamondTape 3)).getD 0 default).derivative =
      some (JsNum.num 7) := by
  have hl : (diamondTape 3).length = 3 := by
    simp [diamondTape, aad_const, aad_mul, aad_add, aad_begin]
  have hWF : TapeWF (diamondTape 3) := by
    intro n hn
    rw [hl] at hn
    interval_cases n <;>
      simp [diamondTape, aad_const, aad_mul, aad_add, aad_begin]
  have hF : FreshTape (diamondTape 3) := by
    intro n hn
    rw [hl] at hn
    interval_cases n <;>
      simp [diamondTape, aad_const, aad_mul, aad_add, aad_begin]
  have hlen3 : 0 < (diamondTape 3).length := by rw [hl]; omega
  have hreach : ∀ i, i < (diamondTape 3).length →
      i ≠ (diamondTape 3).length - 1 →
      ((diamondTape 3).getD i default).parents ≠ [] →
      Reach (diamondTape 3) ((diamondTape 3).length - 1) i := by
    intro i hi hne hp
    rw [hl] at hi hne
    interval_cases i
    · exact absurd (by simp [diamondTape, aad_const, aad_mul, aad_add,
        aad_begin]) hp
    · exact Reach.step Reach.refl
        (by simp [diamondTape, aad_const, aad_mul, aad_add, aad_begin, hl])
    · exact absurd rfl hne
  refine ⟨?_, ?_⟩
  · have h := aad_calc_derivs_exact_on_reachable.1 (diamondTape 3) hWF hF
      hlen3 hreach 2 Reach.refl
    have hcd : cd (diamondTape 3) 2 = 1 := cd_last (diamondTape 3)
    rw [h, hcd]
  · have h := aad_calc_derivs_exact_on_reachable.2 3
    rw [h]
    norm_num

/-- Counterexample to C1 as stated: with `a = constant(2)`, a dangling
`u = add(a, a)` and the output `y = multiply(a, a)`, the node `a` is
reachable from the output and its exact partial derivative is
`∂(a*a)/∂a = 4`, yet the backward pass ends with `a.derivative = NaN`:
when the pass reaches `u`, `u.derivative` is still `undefined`, and
JavaScript's `1 * undefined` is `NaN`, which overwrites the already-correct
contribution in `a.derivative`. -/
theorem aad_calc_derivs_nan_on_dangling :
    Reach (danglingTape 2) 2 0 ∧
    ((aad_calc_derivs (danglingTape 2)).getD 0 default).derivative =
      some JsNum.nan ∧
    cd (danglingTape 2) 0 = 4 ∧
    some JsNum.nan ≠ some (JsNum.num (cd (danglingTape 2) 0)) := by
  have ht : danglingTape 2 =
      [{ value := 2, parents := [], ddparents := [], derivative := none },
       { value := 4, parents := [0, 0], ddparents := [1, 1],
         derivative := none },
       { value := 4, parents := [0, 0], ddparents := [2, 2],
         derivative := none }] := by
    simp [danglingTape, aad_const, aad_add, aad_mul, aad_begin]
    norm_num
  have hcd1 : cd (danglingTape 2) 2 = 1 := cd_last (danglingTape 2)
  have hlen : List.length (danglingTape 2) = 3 := by rw [ht]; rfl
  have hcd2 : cd (danglingTape 2) 1 = 0 := by
    rw [cd, if_neg (by rw [hlen]; omega), hlen]
    rw [Finset.sum_attach (Finset.Ico 2 3)
      (fun c => childWeight (danglingTape 2) c 1 * cd (danglingTape 2) c)]
    rw [show Finset.Ico 2 3 = {2} from by decide, Finset.sum_singleton, hcd1]
    rw [ht]
    norm_num [childWeight, weightIn, pairs]
  have hcd0 : cd (danglingTape 2) 0 = 4 := by
    rw [cd, if_neg (by rw [hlen]; omega), hlen]
    rw [Finset.sum_attach (Finset.Ico 1 3)
      (fun c => childWeight (danglingTape 2) c 0 * cd (danglingTape 2) c)]
    rw [show Finset.Ico 1 3 = insert 1 {2} from by decide,
      Finset.sum_insert (by decide), Finset.sum_singleton, hcd1, hcd2]
    rw [ht]
    norm_num [childWeight, weightIn, pairs]
  refine ⟨?_, ?_, hcd0, ?_⟩
  · exact Reach.step Reach.refl (by rw [ht]; simp)
  · rw [aad_calc_derivs, ht]
    have hs0 : setOutputDeriv
        [{ value := 2, parents := [], ddparents := [], derivative := none },
         { value := 4, parents := [0, 0], ddparents := [1, 1],
           derivative := none },
         { value := 4, parents := [0, 0], ddparents := [2, 2],
           derivative := none }] =
        [{ value := 2, parents := [], ddparents := [], derivative := none },
         { value := 4, parents := [0, 0], ddparents := [1, 1],
           derivative := none },
         { value := 4, parents := [0, 0], ddparents := [2, 2],
           derivative := some (JsNum.num 1) }] := by
      simp [setOutputDeriv]
    rw [hs0]
    have hpY : pairs
        [{ value := 2, parents := [], ddparents := [], derivative := none },
         { value := 4, parents := [0, 0], ddparents := [1, 1],
           derivative := none },
         { value := 4, parents := [0, 0], ddparents := [2, 2],
           derivative := some (JsNum.num 1) }] 2 = [(0, 2), (0, 2)] := rfl
    have e1 : chainStep 2
        [{ value := 2, parents := [], ddparents := [], derivative := none },
         { value := 4, parents := [0, 0], ddparents := [1, 1],
           derivative := none },
         { value := 4, parents := [0, 0], ddparents := [2, 2],
           derivative := some (JsNum.num 1) }] (0, 2) =
        [{ value := 2, parents := [], ddparents := [],
           derivative := some (JsNum.num 2) },
         { value := 4, parents := [0, 0], ddparents := [1, 1],
           derivative := none },
         { value := 4, parents := [0, 0], ddparents := [2, 2],
           derivative := some (JsNum.num 1) }] := by
      norm_num [chainStep, jsOr0, toJs, JsNum.add, JsNum.mul]
    have e2 : chainStep 2
        [{ value := 2, parents := [], ddparents := [],
           derivative := some (JsNum.num 2) },
         { value := 4, parents := [0, 0], ddparents := [1, 1],
           derivative := none },
         { value := 4, parents := [0, 0], ddparents := [2, 2],
           derivative := some (JsNum.num 1) }] (0, 2) =
        [{ value := 2, parents := [], ddparents := [],
           derivative := some (JsNum.num 4) },
         { value := 4, parents := [0, 0], ddparents := [1, 1],
           derivative := none },
         { value := 4, parents := [0, 0], ddparents := [2, 2],
           derivative := some (JsNum.num 1) }] := by
      norm_num [chainStep, jsOr0, toJs, JsNum.add, JsNum.mul]
    have h2 : procNode
        [{ value := 2, parents := [], ddparents := [], derivative := none },
         { value := 4, parents := [0, 0], ddparents := [1, 1],
           derivative := none },
         { value := 4, parents := [0, 0], ddparents := [2, 2],
           derivative := some (JsNum.num 1) }] 2 =
        [{ value := 2, parents := [], ddparents := [],
           derivative := some (JsNum.num 4) },
         { value := 4, parents := [0, 0], ddparents := [1, 1],
           derivative := none },
         { value := 4, parents := [0, 0], ddparents := [2, 2],
           derivative := some (JsNum.num 1) }] := by
      rw [procNode, hpY]
      show chainStep 2 (chainStep 2
        [{ value := 2, parents := [], ddparents := [], derivative := none },
         { value := 4, parents := [0, 0], ddparents := [1, 1],
           derivative := none },
         { value := 4, parents := [0, 0], ddparents := [2, 2],
           derivative := some (JsNum.num 1) }] (0, 2)) (0, 2) =
        [{ value := 2, parents := [], ddparents := [],
           derivative := some (JsNum.num 4) },
         { value := 4, parents := [0, 0], ddparents := [1, 1],
           derivative := none },
         { value := 4, parents := [0, 0], ddparents := [2, 2],
           derivative := some (JsNum.num 1) }]
      rw [e1, e2]
    have hpU : pairs
        [{ value := 2, parents := [], ddparents := [],
           derivative := some (JsNum.num 4) },
         { value := 4, parents := [0, 0], ddparents := [1, 1],
           derivative := none },
         { value := 4, parents := [0, 0], ddparents := [2, 2],
           derivative := some (JsNum.num 1) }] 1 = [(0, 1), (0, 1)] := rfl
    have e3 : chainStep 1
        [{ value := 2, parents := [], ddparents := [],
           derivative := some (JsNum.num 4) },
         { value := 4, parents := [0, 0], ddparents := [1, 1],
           derivative := none },
         { value := 4, parents := [0, 0], ddparents := [2, 2],
           derivative := some (JsNum.num 1) }] (0, 1) =
        [{ value := 2, parents := [], ddparents := [],
           derivative := some JsNum.nan },
         { value := 4, parents := [0, 0], ddparents := [1, 1],
           derivative := none },
         { value := 4, parents := [0, 0], ddparents := [2, 2],
           derivative := some (JsNum.num 1) }] := by
      norm_num [chainStep, jsOr0, toJs, JsNum.add, JsNum.mul]
    have e4 : chainStep 1
        [{ value := 2, parents := [], ddparents := [],
           derivative := some JsNum.nan },
         { value := 4, parents := [0, 0], ddparents := [1, 1],
           derivative := none },
         { value := 4, parents := [0, 0], ddparents := [2, 2],
           derivative := some (JsNum.num 1) }] (0, 1) =
        [{ value := 2, parents := [], ddparents := [],
           derivative := some JsNum.nan },
         { value := 4, parents := [0, 0], ddparents := [1, 1],
           derivative := none },
         { value := 4, parents := [0, 0], ddparents := [2, 2],
           derivative := some (JsNum.num 1) }] := by
      norm_num [chainStep, jsOr0, toJs, JsNum.add, JsNum.mul]
    have h3 : procNode
        [{ value := 2, parents := [], ddparents := [],
           derivative := some (JsNum.num 4) },
         { value := 4, parents := [0, 0], ddparents := [1, 1],
           derivative := none },
         { value := 4, parents := [0, 0], ddparents := [2, 2],
           derivative := some (JsNum.num 1) }] 1 =
        [{ value := 2, parents := [], ddparents := [],
           derivative := some JsNum.nan },
         { value := 4, parents := [0, 0], ddparents := [1, 1],
           derivative := none },
         { value := 4, parents := [0, 0], ddparents := [2, 2],
           derivative := some (JsNum.num 1) }] := by
      rw [procNode, hpU]
      show chainStep 1 (chainStep 1
        [{ value := 2, parents := [], ddparents := [],
           derivative := some (JsNum.num 4) },
         { value := 4, parents := [0, 0], ddparents := [1, 1],
           derivative := none },
         { value := 4, parents := [0, 0], ddparents := [2, 2],
           derivative := some (JsNum.num 1) }] (0, 1)) (0, 1) =
        [{ value := 2, parents := [], ddparents := [],
           derivative := some JsNum.nan },
         { value := 4, parents := [0, 0], ddparents := [1, 1],
           derivative := none },
         { value := 4, parents := [0, 0], ddparents := [2, 2],
           derivative := some (JsNum.num 1) }]
      rw [e3, e4]
    have h4 : procNode
        [{ value := 2, parents := [], ddparents := [],
           derivative := some JsNum.nan },
         { value := 4, parents := [0, 0], ddparents := [1, 1],
           derivative := none },
         { value := 4, parents := [0, 0], ddparents := [2, 2],
           derivative := some (JsNum.num 1) }] 0 =
        [{ value := 2, parents := [], ddparents := [],
           derivative := some JsNum.nan },
         { value := 4, parents := [0, 0], ddparents := [1, 1],
           derivative := none },
         { value := 4, parents := [0, 0], ddparents := [2, 2],
           derivative := some (JsNum.num 1) }] := rfl
    show ((procNode (procNode (procNode
        [{ value := 2, parents := [], ddparents := [], derivative := none },
         { value := 4, parents := [0, 0], ddparents := [1, 1],
           derivative := none },
         { value := 4, parents := [0, 0], ddparents := [2, 2],
           derivative := some (JsNum.num 1) }] 2) 1) 0).getD 0
      default).derivative = some JsNum.nan
    rw [h2, h3, h4]
    rfl
  · exact fun h => JsNum.noConfusion (Option.some.inj h)

/-! ## C2: the backward pass as the spec sentence describes it -/

theorem descStep_fields (dn : JsNum) (s : Tape) (pd : Nat × ℝ) :
    (descStep dn s pd).length = s.length ∧
    ∀ q, ((descStep dn s pd).getD q default).value = (s.getD q default).value ∧
      ((descStep dn s pd).getD q default).parents =
        (s.getD q default).parents ∧
      ((descStep dn s pd).getD q default).ddparents =
        (s.getD q default).ddparents := by
  refine ⟨by rw [descStep]; exact List.length_set _ _ _, fun q => ?_⟩
  by_cases hq : pd.1 = q
  · subst hq
    by_cases hlt : pd.1 < s.length
    · rw [descStep, getD_set_eq _ _ _ _ hlt]
      exact ⟨rfl, rfl, rfl⟩
    · rw [descStep, List.set_eq_of_length_le (le_of_not_lt hlt)]
      exact ⟨rfl, rfl, rfl⟩
  · rw [descStep, getD_set_ne _ _ _ _ _ hq]
    exact ⟨rfl, rfl, rfl⟩

theorem sameSkeleton_foldl_descStep (t : Tape) (dn : JsNum)
    (L : List (Nat × ℝ)) : ∀ s, sameSkeleton t s →
    sameSkeleton t (L.foldl (descStep dn) s) := by
  induction L with
  | nil => exact fun s h => h
  | cons pd L ih =>
    intro s h
    refine ih _ ?_
    obtain ⟨hlen, hq⟩ := h
    obtain ⟨hlen', hq'⟩ := descStep_fields dn s pd
    refine ⟨by rw [hlen', hlen], fun q hqlt => ?_⟩
    obtain ⟨h1, h2, h3⟩ := hq' q
    obtain ⟨g1, g2, g3⟩ := hq q hqlt
    exact ⟨h1.trans g1, h2.trans g2, h3.trans g3⟩

theorem sameSkeleton_descNode (t s : Tape) (h : sameSkeleton t s) (n : Nat) :
    sameSkeleton t (descNode s n) :=
  sameSkeleton_foldl_descStep t _ (pairs s n) s h

/-- The live per-pair reads of the source's inner loop agree with reading the
node's own derivative once, as long as no pair points back at the node
itself (true on well-formed tapes, where parents sit strictly earlier). -/
theorem foldl_chainStep_eq_descStep (n : Nat) (L : List (Nat × ℝ)) :
    ∀ s, (∀ pd ∈ L, pd.1 ≠ n) →
    L.foldl (chainStep n) s =
      L.foldl (descStep (toJs (s.getD n default).derivative)) s := by
  induction L with
  | nil => exact fun s _ => rfl
  | cons pd L ih =>
    intro s h
    have h1 : chainStep n s pd =
        descStep (toJs (s.getD n default).derivative) s pd := rfl
    rw [List.foldl_cons, List.foldl_cons, h1]
    have hne : pd.1 ≠ n := h pd (List.mem_cons_self pd L)
    have h2 : ((descStep (toJs (s.getD n default).derivative) s pd).getD n
        default) = s.getD n default := by
      rw [descStep]
      exact getD_set_ne _ _ _ _ _ hne
    rw [ih _ (fun pd' hm => h pd' (List.mem_cons_of_mem pd hm)), h2]

theorem procNode_eq_descNode (s : Tape) (n : Nat)
    (h : ∀ pd ∈ pairs s n, pd.1 ≠ n) : procNode s n = descNode s n :=
  foldl_chainStep_eq_descStep n (pairs s n) s h

/-- The source's countdown loop is the left fold over the reversed list of
positions. -/
theorem procDown_eq_foldl : ∀ (n : Nat) (s : Tape),
    procDown s n = (List.range (n + 1)).reverse.foldl procNode s := by
  intro n
  induction n with
  | zero => exact fun s => rfl
  | succ n ih =>
    intro s
    show procDown (procNode s (n + 1)) n = _
    rw [ih]
    conv_rhs => rw [List.range_succ, List.reverse_append]
    rfl

theorem sameSkeleton_setOutputDeriv (t : Tape) :
    sameSkeleton t (setOutputDeriv t) := by
  refine ⟨by rw [setOutputDeriv]; exact List.length_set _ _ _,
    fun q hq => ?_⟩
  by_cases hqo : q = t.length - 1
  · subst hqo
    have hlt : t.length - 1 < t.length := by omega
    rw [setOutputDeriv, getD_set_eq _ _ _ _ hlt]
    exact ⟨rfl, rfl, rfl⟩
  · rw [setOutputDeriv, getD_set_ne _ _ _ _ _ (fun he => hqo he.symm)]
    exact ⟨rfl, rfl, rfl⟩

theorem foldl_procNode_eq_descNode (t : Tape) (hWF : TapeWF t)
    (L : List Nat) : ∀ s, sameSkeleton t s →
    L.foldl procNode s = L.foldl descNode s := by
  induction L with
  | nil => exact fun s _ => rfl
  | cons n L ih =>
    intro s hsk
    rw [List.foldl_cons, List.foldl_cons]
    have hcond : ∀ pd ∈ pairs s n, pd.1 ≠ n := by
      intro pd hm
      rw [pairs_skeleton t s hsk n] at hm
      by_cases hn : n < t.length
      · have := (hWF n hn).2 pd.1 (List.of_mem_zip hm).1
        omega
      · have hdef : t.getD n default = default :=
          List.getD_eq_default _ _ (by omega)
        rw [pairs, hdef] at hm
        exact absurd hm (List.not_mem_nil pd)
    rw [procNode_eq_descNode s n hcond]
    exact ih _ (sameSkeleton_descNode t s hsk n)

/-- C2 (amended): on a well-formed tape, `aad_calc_derivs` sets the last
node's derivative to `1` and then, in strict reverse creation order, performs
`parent.derivative = (parent.derivative || 0) + local_derivative *
node.derivative` for each pair — where the parent's absent (or NaN) prior
derivative reads as `0`, but a node whose *own* derivative is still absent
contributes `local_derivative * undefined = NaN` to its parents, not `0`. -/
theorem aad_calc_derivs_operational (t : Tape) (hWF : TapeWF t) :
    aad_calc_derivs t = calc_derivs_desc t := by
  rcases Nat.eq_zero_or_pos t.length with hz | hpos
  · have ht : t = [] := List.eq_nil_of_length_eq_zero hz
    subst ht
    rfl
  · rw [aad_calc_derivs, calc_derivs_desc, procDown_eq_foldl]
    have h1 : t.length - 1 + 1 = t.length := by omega
    rw [h1]
    exact foldl_procNode_eq_descNode t hWF _ (setOutputDeriv t)
      (sameSkeleton_setOutputDeriv t)

/-- Witness for C2: the refinement holds on the concrete diamond tape with
`a = constant(4)`. -/
theorem aad_calc_derivs_operational_witness :
    aad_calc_derivs (diamondTape 4) = calc_derivs_desc (diamondTape 4) := by
  apply aad_calc_derivs_operational
  intro n hn
  have hl : (diamondTape 4).length = 3 := by
    simp [diamondTape, aad_const, aad_mul, aad_add, aad_begin]
  rw [hl] at hn
  interval_cases n <;>
    simp [diamondTape, aad_const, aad_mul, aad_add, aad_begin]

/-- Counterexample to C2 as stated: with `a = constant(5)`, a dangling
`u = add(a, a)` and output `y = multiply(a, a)`, the code leaves
`a.derivative = NaN`, while the claim's reading — every absent derivative
treated as `0` — would leave `a.derivative = 10`: when `u` is processed its
own derivative is still absent, and the code multiplies the local derivative
by `undefined` (giving NaN), not by `0`. -/
theorem aad_calc_derivs_not_absent_as_zero :
    ((aad_calc_derivs (danglingTape 5)).getD 0 default).derivative =
      some JsNum.nan ∧
    ((calc_derivs_claim (danglingTape 5)).getD 0 default).derivative =
      some (JsNum.num 10) ∧
    aad_calc_derivs (danglingTape 5) ≠ calc_derivs_claim (danglingTape 5) := by
  have ht : danglingTape 5 =
        [{ value := 5, parents := [], ddparents := [], derivative := none },
         { value := 10, parents := [0, 0], ddparents := [1, 1],
           derivative := none },
         { value := 25, parents := [0, 0], ddparents := [5, 5],
           derivative := none }] := by
    simp [danglingTape, aad_const, aad_add, aad_mul, aad_begin]
    norm_num
  have hs0 : setOutputDeriv
        [{ value := 5, parents := [], ddparents := [], derivative := none },
         { value := 10, parents := [0, 0], ddparents := [1, 1],
           derivative := none },
         { value := 25, parents := [0, 0], ddparents := [5, 5],
           derivative := none }] =
        [{ value := 5, parents := [], ddparents := [], derivative := none },
         { value := 10, parents := [0, 0], ddparents := [1, 1],
           derivative := none },
         { value := 25, parents := [0, 0], ddparents := [5, 5],
           derivative := some (JsNum.num 1) }] := by
    simp [setOutputDeriv]
  have hpY : pairs
        [{ value := 5, parents := [], ddparents := [], derivative := none },
         { value := 10, parents := [0, 0], ddparents := [1, 1],
           derivative := none },
         { value := 25, parents := [0, 0], ddparents := [5, 5],
           derivative := some (JsNum.num 1) }] 2 = [(0, 5), (0, 5)] := rfl
  have e1 : chainStep 2
        [{ value := 5, parents := [], ddparents := [], derivative := none },
         { value := 10, parents := [0, 0], ddparents := [1, 1],
           derivative := none },
         { value := 25, parents := [0, 0], ddparents := [5, 5],
           derivative := some (JsNum.num 1) }] (0, 5) =
        [{ value := 5, parents := [], ddparents := [],
           derivative := some (JsNum.num 5) },
         { value := 10, parents := [0, 0], ddparents := [1, 1],
           derivative := none },
         { value := 25, parents := [0, 0], ddparents := [5, 5],
           derivative := some (JsNum.num 1) }] := by
    norm_num [chainStep, jsOr0, toJs, JsNum.add, JsNum.mul]
  have e2 : chainStep 2
        [{ value := 5, parents := [], ddparents := [],
           derivative := some (JsNum.num 5) },
         { value := 10, parents := [0, 0], ddparents := [1, 1],
           derivative := none },
         { value := 25, parents := [0, 0], ddparents := [5, 5],
           derivative := some (JsNum.num 1) }] (0, 5) =
        [{ value := 5, parents := [], ddparents := [],
           derivative := some (JsNum.num 10) },
         { value := 10, parents := [0, 0], ddparents := [1, 1],
           derivative := none },
         { value := 25, parents := [0, 0], ddparents := [5, 5],
           derivative := some (JsNum.num 1) }] := by
    norm_num [chainStep, jsOr0, toJs, JsNum.add, JsNum.mul]
  have h2 : procNode
        [{ value := 5, parents := [], ddparents := [], derivative := none },
         { value := 10, parents := [0, 0], ddparents := [1, 1],
           derivative := none },
         { value := 25, parents := [0, 0], ddparents := [5, 5],
           derivative := some (JsNum.num 1) }] 2 =
        [{ value := 5, parents := [], ddparents := [],
           derivative := some (JsNum.num 10) },
         { value := 10, parents := [0, 0], ddparents := [1, 1],
           derivative := none },
         { value := 25, parents := [0, 0], ddparents := [5, 5],
           derivative := some (JsNum.num 1) }] := by
    rw [procNode, hpY]
    show chainStep 2 (chainStep 2
        [{ value := 5, parents := [], ddparents := [], derivative := none },
         { value := 10, parents := [0, 0], ddparents := [1, 1],
           derivative := none },
         { value := 25, parents := [0, 0], ddparents := [5, 5],
           derivative := some (JsNum.num 1) }] (0, 5)) (0, 5) =
        [{ value := 5, parents := [], ddparents := [],
           derivative := some (JsNum.num 10) },
         { value := 10, parents := [0, 0], ddparents := [1, 1],
           derivative := none },
         { value := 25, parents := [0, 0], ddparents := [5, 5],
           derivative := some (JsNum.num 1) }]
    rw [e1, e2]
  have e3 : chainStep 1
        [{ value := 5, parents := [], ddparents := [],
           derivative := some (JsNum.num 10) },
         { value := 10, parents := [0, 0], ddparents := [1, 1],
           derivative := none },
         { value := 25, parents := [0, 0], ddparents := [5, 5],
           derivative := some (JsNum.num 1) }] (0, 1) =
        [{ value := 5, parents := [], ddparents := [],
           derivative := some JsNum.nan },
         { value := 10, parents := [0, 0], ddparents := [1, 1],
           derivative := none },
         { value := 25, parents := [0, 0], ddparents := [5, 5],
           derivative := some (JsNum.num 1) }] := by
    norm_num [chainStep, jsOr0, toJs, JsNum.add, JsNum.mul]
  have e4 : chainStep 1
        [{ value := 5, parents := [], ddparents := [],
           derivative := some JsNum.nan },
         { value := 10, parents := [0, 0], ddparents := [1, 1],
           derivative := none },
         { value := 25, parents := [0, 0], ddparents := [5, 5],
           derivative := some (JsNum.num 1) }] (0, 1) =
        [{ value := 5, parents := [], ddparents := [],
           derivative := some JsNum.nan },
         { value := 10, parents := [0, 0], ddparents := [1, 1],
           derivative := none },
         { value := 25, parents := [0, 0], ddparents := [5, 5],
           derivative := some (JsNum.num 1) }] := by
    norm_num [chainStep, jsOr0, toJs, JsNum.add, JsNum.mul]
  have h3 : procNode
        [{ value := 5, parents := [], ddparents := [],
           derivative := some (JsNum.num 10) },
         { value := 10, parents := [0, 0], ddparents := [1, 1],
           derivative := none },
         { value := 25, parents := [0, 0], ddparents := [5, 5],
           derivative := some (JsNum.num 1) }] 1 =
        [{ value := 5, parents := [], ddparents := [],
           derivative := some JsNum.nan },
         { value := 10, parents := [0, 0], ddparents := [1, 1],
           derivative := none },
         { value := 25, parents := [0, 0], ddparents := [5, 5],
           derivative := some (JsNum.num 1) }] := by
    rw [procNode]
    show chainStep 1 (chainStep 1
        [{ value := 5, parents := [], ddparents := [],
           derivative := some (JsNum.num 10) },
         { value := 10, parents := [0, 0], ddparents := [1, 1],
           derivative := none },
         { value := 25, parents := [0, 0], ddparents := [5, 5],
           derivative := some (JsNum.num 1) }] (0, 1)) (0, 1) =
        [{ value := 5, parents := [], ddparents := [],
           derivative := some JsNum.nan },
         { value := 10, parents := [0, 0], ddparents := [1, 1],
           derivative := none },
         { value := 25, parents := [0, 0], ddparents := [5, 5],
           derivative := some (JsNum.num 1) }]
    rw [e3, e4]
  have h4 : procNode
        [{ value := 5, parents := [], ddparents := [],
           derivative := some JsNum.nan },
         { value := 10, parents := [0, 0], ddparents := [1, 1],
           derivative := none },
         { value := 25, parents := [0, 0], ddparents := [5, 5],
           derivative := some (JsNum.num 1) }] 0 =
        [{ value := 5, parents := [], ddparents := [],
           derivative := some JsNum.nan },
         { value := 10, parents := [0, 0], ddparents := [1, 1],
           derivative := none },
         { value := 25, parents := [0, 0], ddparents := [5, 5],
           derivative := some (JsNum.num 1) }] := rfl
  have hcode : aad_calc_derivs (danglingTape 5) =
        [{ value := 5, parents := [], ddparents := [],
           derivative := some JsNum.nan },
         { value := 10, parents := [0, 0], ddparents := [1, 1],
           derivative := none },
         { value := 25, parents := [0, 0], ddparents := [5, 5],
           derivative := some (JsNum.num 1) }] := by
    rw [aad_calc_derivs, ht, hs0]
    show procNode (procNode (procNode
        [{ value := 5, parents := [], ddparents := [], derivative := none },
         { value := 10, parents := [0, 0], ddparents := [1, 1],
           derivative := none },
         { value := 25, parents := [0, 0], ddparents := [5, 5],
           derivative := some (JsNum.num 1) }] 2) 1) 0 =
        [{ value := 5, parents := [], ddparents := [],
           derivative := some JsNum.nan },
         { value := 10, parents := [0, 0], ddparents := [1, 1],
           derivative := none },
         { value := 25, parents := [0, 0], ddparents := [5, 5],
           derivative := some (JsNum.num 1) }]
    rw [h2, h3, h4]
  have f1 : claimStep (JsNum.num 1)
        [{ value := 5, parents := [], ddparents := [], derivative := none },
         { value := 10, parents := [0, 0], ddparents := [1, 1],
           derivative := none },
         { value := 25, parents := [0, 0], ddparents := [5, 5],
           derivative := some (JsNum.num 1) }] (0, 5) =
        [{ value := 5, parents := [], ddparents := [],
           derivative := some (JsNum.num 5) },
         { value := 10, parents := [0, 0], ddparents := [1, 1],
           derivative := none },
         { value := 25, parents := [0, 0], ddparents := [5, 5],
           derivative := some (JsNum.num 1) }] := by
    norm_num [claimStep, jsOr0, JsNum.add, JsNum.mul]
  have f2 : claimStep (JsNum.num 1)
        [{ value := 5, parents := [], ddparents := [],
           derivative := some (JsNum.num 5) },
         { value := 10, parents := [0, 0], ddparents := [1, 1],
           derivative := none },
         { value := 25, parents := [0, 0], ddparents := [5, 5],
           derivative := some (JsNum.num 1) }] (0, 5) =
        [{ value := 5, parents := [], ddparents := [],
           derivative := some (JsNum.num 10) },
         { value := 10, parents := [0, 0], ddparents := [1, 1],
           derivative := none },
         { value := 25, parents := [0, 0], ddparents := [5, 5],
           derivative := some (JsNum.num 1) }] := by
    norm_num [claimStep, jsOr0, JsNum.add, JsNum.mul]
  have g2 : claimNode
        [{ value := 5, parents := [], ddparents := [], derivative := none },
         { value := 10, parents := [0, 0], ddparents := [1, 1],
           derivative := none },
         { value := 25, parents := [0, 0], ddparents := [5, 5],
           derivative := some (JsNum.num 1) }] 2 =
        [{ value := 5, parents := [], ddparents := [],
           derivative := some (JsNum.num 10) },
         { value := 10, parents := [0, 0], ddparents := [1, 1],
           derivative := none },
         { value := 25, parents := [0, 0], ddparents := [5, 5],
           derivative := some (JsNum.num 1) }] := by
    rw [claimNode]
    show claimStep (JsNum.num 1) (claimStep (JsNum.num 1)
        [{ value := 5, parents := [], ddparents := [], derivative := none },
         { value := 10, parents := [0, 0], ddparents := [1, 1],
           derivative := none },
         { value := 25, parents := [0, 0], ddparents := [5, 5],
           derivative := some (JsNum.num 1) }] (0, 5)) (0, 5) =
        [{ value := 5, parents := [], ddparents := [],
           derivative := some (JsNum.num 10) },
         { value := 10, parents := [0, 0], ddparents := [1, 1],
           derivative := none },
         { value := 25, parents := [0, 0], ddparents := [5, 5],
           derivative := some (JsNum.num 1) }]
    rw [f1, f2]
  have f3 : claimStep (JsNum.num 0)
        [{ value := 5, parents := [], ddparents := [],
           derivative := some (JsNum.num 10) },
         { value := 10, parents := [0, 0], ddparents := [1, 1],
           derivative := none },
         { value := 25, parents := [0, 0], ddparents := [5, 5],
           derivative := some (JsNum.num 1) }] (0, 1) =
        [{ value := 5, parents := [], ddparents := [],
           derivative := some (JsNum.num 10) },
         { value := 10, parents := [0, 0], ddparents := [1, 1],
           derivative := none },
         { value := 25, parents := [0, 0], ddparents := [5, 5],
           derivative := some (JsNum.num 1) }] := by
    norm_num [claimStep, jsOr0, JsNum.add, JsNum.mul]
  have g3 : claimNode
        [{ value := 5, parents := [], ddparents := [],
           derivative := some (JsNum.num 10) },
         { value := 10, parents := [0, 0], ddparents := [1, 1],
           derivative := none },
         { value := 25, parents := [0, 0], ddparents := [5, 5],
           derivative := some (JsNum.num 1) }] 1 =
        [{ value := 5, parents := [], ddparents := [],
           derivative := some (JsNum.num 10) },
         { value := 10, parents := [0, 0], ddparents := [1, 1],
           derivative := none },
         { value := 25, parents := [0, 0], ddparents := [5, 5],
           derivative := some (JsNum.num 1) }] := by
    rw [claimNode]
    show claimStep (JsNum.num 0) (claimStep (JsNum.num 0)
        [{ value := 5, parents := [], ddparents := [],
           derivative := some (JsNum.num 10) },
         { value := 10, parents := [0, 0], ddparents := [1, 1],
           derivative := none },
         { value := 25, parents := [0, 0], ddparents := [5, 5],
           derivative := some (JsNum.num 1) }] (0, 1)) (0, 1) =
        [{ value := 5, parents := [], ddparents := [],
           derivative := some (JsNum.num 10) },
         { value := 10, parents := [0, 0], ddparents := [1, 1],
           derivative := none },
         { value := 25, parents := [0, 0], ddparents := [5, 5],
           derivative := some (JsNum.num 1) }]
    rw [f3, f3]
  have g4 : claimNode
        [{ value := 5, parents := [], ddparents := [],
           derivative := some (JsNum.num 10) },
         { value := 10, parents := [0, 0], ddparents := [1, 1],
           derivative := none },
         { value := 25, parents := [0, 0], ddparents := [5, 5],
           derivative := some (JsNum.num 1) }] 0 =
        [{ value := 5, parents := [], ddparents := [],
           derivative := some (JsNum.num 10) },
         { value := 10, parents := [0, 0], ddparents := [1, 1],
           derivative := none },
         { value := 25, parents := [0, 0], ddparents := [5, 5],
           derivative := some (JsNum.num 1) }] := rfl
  have hclaim : calc_derivs_claim (danglingTape 5) =
        [{ value := 5, parents := [], ddparents := [],
           derivative := some (JsNum.num 10) },
         { value := 10, parents := [0, 0], ddparents := [1, 1],
           derivative := none },
         { value := 25, parents := [0, 0], ddparents := [5, 5],
           derivative := some (JsNum.num 1) }] := by
    rw [calc_derivs_claim, ht, hs0]
    show claimNode (claimNode (claimNode
        [{ value := 5, parents := [], ddparents := [], derivative := none },
         { value := 10, parents := [0, 0], ddparents := [1, 1],
           derivative := none },
         { value := 25, parents := [0, 0], ddparents := [5, 5],
           derivative := some (JsNum.num 1) }] 2) 1) 0 =
        [{ value := 5, parents := [], ddparents := [],
           derivative := some (JsNum.num 10) },
         { value := 10, parents := [0, 0], ddparents := [1, 1],
           derivative := none },
         { value := 25, parents := [0, 0], ddparents := [5, 5],
           derivative := some (JsNum.num 1) }]
    rw [g2, g3, g4]
  refine ⟨by rw [hcode]; rfl, by rw [hclaim]; rfl, ?_⟩
  intro h
  rw [hcode, hclaim] at h
  exact JsNum.noConfusion (Option.some.inj
    (congrArg (fun l : Tape => (l.getD 0 default).derivative) h))

/-! ## C4: division by zero -/

/-- C4: `divide(a, b)` fails with the division-by-zero error exactly when
`b.value == 0` (the check runs before anything is computed or appended: the
error case produces no extended tape); otherwise it appends and returns a node
with value `a.value / b.value` and local derivatives
`(1/b.value, -a.value/b.value^2)`. -/
theorem aad_div_zero_check (t : Tape) (i j : Nat) :
    ((t.getD j default).value = 0 → aad_div t i j = .error "Division by 0") ∧
    ((t.getD j default).value ≠ 0 →
      aad_div t i j = .ok (t ++
        [{ value := (t.getD i default).value / (t.getD j default).value,
           parents := [i, j],
           ddparents := [1 / (t.getD j default).value,
             -(t.getD i default).value /
               ((t.getD j default).value * (t.getD j default).value)],
           derivative := none }], t.length)) := by
  constructor
  · intro h
    simp only [List.getD_eq_getElem?_getD] at h
    simp [aad_div, h]
  · intro h
    simp only [List.getD_eq_getElem?_getD] at h
    simp [aad_div, h]

/-- Witness for C4: `divide(constant(1), constant(0))` throws, and
`divide(constant(1), constant(2))` appends the node
`{value: 1/2, ddparents: [1/2, -1/4]}`. -/
theorem aad_div_zero_check_witness :
    aad_div (aad_const (aad_const aad_begin 1).1 0).1 0 1 = .error "Division by 0" ∧
    aad_div (aad_const (aad_const aad_begin 1).1 2).1 0 1 =
      .ok ((aad_const (aad_const aad_begin 1).1 2).1 ++
        [{ value := 1 / 2, parents := [0, 1], ddparents := [1 / 2, -(1 / 4)],
           derivative := none }], 2) := by
  constructor
  · exact (aad_div_zero_check _ 0 1).1 (by simp [aad_const, aad_begin])
  · have h := (aad_div_zero_check (aad_const (aad_const aad_begin 1).1 2).1 0 1).2
      (by simp [aad_const, aad_begin])
    rw [h]
    norm_num [aad_const, aad_begin]

/-! ## C7: max and its tie-break -/

/-- C7: `max(a, b)` appends a node whose value is `max(a.value, b.value)` and
whose local derivatives are `(1, 0)` when `a.value >= b.value` (so the
tie-break at equality favors the first argument) and `(0, 1)` otherwise. -/
theorem aad_max_tiebreak (t : Tape) (i j : Nat) :
    ((t.getD j default).value ≤ (t.getD i default).value →
      aad_max t i j = (t ++
        [{ value := max (t.getD i default).value (t.getD j default).value,
           parents := [i, j], ddparents := [1, 0], derivative := none }],
        t.length)) ∧
    ((t.getD i default).value < (t.getD j default).value →
      aad_max t i j = (t ++
        [{ value := max (t.getD i default).value (t.getD j default).value,
           parents := [i, j], ddparents := [0, 1], derivative := none }],
        t.length)) := by
  constructor
  · intro h
    simp only [List.getD_eq_getElem?_getD] at h
    simp [aad_max, ge_iff_le, h]
  · intro h
    simp only [List.getD_eq_getElem?_getD] at h
    simp [aad_max, ge_iff_le, not_le.mpr h]

/-- Witness for C7: `max(constant(3), constant(3))` takes the `a.value >=
b.value` branch and yields local derivatives `(1, 0)`. -/
theorem aad_max_tiebreak_witness :
    aad_max (aad_const (aad_const aad_begin 3).1 3).1 0 1 =
      ((aad_const (aad_const aad_begin 3).1 3).1 ++
        [{ value := 3, parents := [0, 1], ddparents := [1, 0],
           derivative := none }], 2) := by
  have h := (aad_max_tiebreak (aad_const (aad_const aad_begin 3).1 3).1 0 1).1
    (by simp [aad_const, aad_begin])
  rw [h]
  norm_num [aad_const, aad_begin]

/-! ## C3: log's domain guard -/

/-- C3 (amended): `log(a)` fails exactly when `a.value < 0` — the `isNaN`
guard fires precisely for negative arguments, since `Math.log(0)` is
`-Infinity`, not NaN; for `a.value >= 0` the call succeeds, and for
`a.value > 0` the appended node has value `ln(a.value)` and local derivative
`1/a.value`. -/
theorem aad_log_fails_iff_neg (t : Tape) (i : Nat) :
    ((t.getD i default).value < 0 → aad_log t i = .error "NAN from log") ∧
    (0 ≤ (t.getD i default).value → (aad_log t i).isOk = true) ∧
    (0 < (t.getD i default).value →
      aad_log t i = .ok (t ++
        [{ value := Real.log (t.getD i default).value, parents := [i],
           ddparents := [1 / (t.getD i default).value], derivative := none }],
        t.length)) := by
  refine ⟨fun h => ?_, fun h => ?_, fun h => ?_⟩
  · simp only [List.getD_eq_getElem?_getD] at h
    simp [aad_log, log_is_nan, h]
  · simp only [List.getD_eq_getElem?_getD] at h
    simp [aad_log, log_is_nan, not_lt.mpr h, Except.isOk, Except.toBool]
  · simp only [List.getD_eq_getElem?_getD] at h
    simp [aad_log, log_is_nan, not_lt.mpr (le_of_lt h)]

/-- Counterexample to C3 as stated: `log(constant(0))` does *not* fail — its
argument is `0`, `Math.log(0)` is `-Infinity`, `isNaN(-Infinity)` is `false`,
so the node is pushed and the call succeeds. -/
theorem aad_log_zero_does_not_fail :
    (aad_log (aad_const aad_begin 0).1 0).isOk = true := by
  simp [aad_log, log_is_nan, aad_const, aad_begin, Except.isOk, Except.toBool]

/-- Witness for C3: `log(constant(-1))` throws `"NAN from log"`, and
`log(constant(4))` appends `{value: ln 4, parents: [0], ddparents: [1/4]}`. -/
theorem aad_log_fails_iff_neg_witness :
    aad_log (aad_const aad_begin (-1)).1 0 = .error "NAN from log" ∧
    aad_log (aad_const aad_begin 4).1 0 =
      .ok ((aad_const aad_begin 4).1 ++
        [{ value := Real.log 4, parents := [0], ddparents := [1 / 4],
           derivative := none }], 1) := by
  constructor
  · exact (aad_log_fails_iff_neg _ 0).1 (by norm_num [aad_const, aad_begin])
  · have h := (aad_log_fails_iff_neg (aad_const aad_begin 4).1 0).2.2
      (by norm_num [aad_const, aad_begin])
    rw [h]
    norm_num [aad_const, aad_begin]

/-! ## C6: power's zero-base short-circuit -/

/-- C6: `power(a, b)` returns a freshly-appended constant-0 node (value `0`,
no parents, no local derivatives) when `a.value == 0`; otherwise it is the
composition `exp(multiply(b, log(a)))`: for `a.value < 0` the internal `log`
throws, and for `a.value > 0` (with `b` a node of the tape) it appends the
`log`, `multiply` and `exp` nodes in order and returns the `exp` node, whose
value is `e^(b.value * ln(a.value))`. -/
theorem aad_pow_cases (t : Tape) (i j : Nat) :
    ((t.getD i default).value = 0 →
      aad_pow t i j = .ok (t ++
        [{ value := 0, parents := [], ddparents := [], derivative := none }],
        t.length)) ∧
    ((t.getD i default).value < 0 → aad_pow t i j = .error "NAN from log") ∧
    (0 < (t.getD i default).value → j < t.length →
      aad_pow t i j = .ok (t ++
        [{ value := Real.log (t.getD i default).value, parents := [i],
           ddparents := [1 / (t.getD i default).value], derivative := none }] ++
        [{ value := (t.getD j default).value * Real.log (t.getD i default).value,
           parents := [j, t.length],
           ddparents := [Real.log (t.getD i default).value,
             (t.getD j default).value],
           derivative := none }] ++
        [{ value := Real.exp ((t.getD j default).value *
             Real.log (t.getD i default).value),
           parents := [t.length + 1],
           ddparents := [Real.exp ((t.getD j default).value *
             Real.log (t.getD i default).value)],
           derivative := none }],
        t.length + 2)) := by
  refine ⟨fun h => ?_, fun h => ?_, fun h hj => ?_⟩
  · simp only [List.getD_eq_getElem?_getD] at h
    simp [aad_pow, h, aad_const]
  · simp only [List.getD_eq_getElem?_getD] at h
    have hne : ¬ (t.getD i default).value = 0 := by
      simp only [List.getD_eq_getElem?_getD]
      exact ne_of_lt h
    have hlog : aad_log t i = .error "NAN from log" :=
      (aad_log_fails_iff_neg t i).1 (by simpa [List.getD_eq_getElem?_getD] using h)
    simp only [List.getD_eq_getElem?_getD] at hne
    simp [aad_pow, hne, hlog]
  · have hne : ¬ (t.getD i default).value = 0 := ne_of_gt h
    have hlog := (aad_log_fails_iff_neg t i).2.2 h
    simp only [List.getD_eq_getElem?_getD] at hne
    simp [aad_pow, hne, hlog, aad_mul, aad_exp, exp_is_nan,
      List.getD_append, List.getD_append_right, hj, List.getElem?_append,
      List.getElem?_eq_getElem, List.getElem_append_right]

/-- Witness for C6: `power(constant(0), constant(2))` returns a constant-0
node — value `0`, no parents, no local derivatives — appended at position 2. -/
theorem aad_pow_cases_witness :
    aad_pow (aad_const (aad_const aad_begin 0).1 2).1 0 1 =
      .ok ((aad_const (aad_const aad_begin 0).1 2).1 ++
        [{ value := 0, parents := [], ddparents := [], derivative := none }],
        2) := by
  have h := (aad_pow_cases (aad_const (aad_const aad_begin 0).1 2).1 0 1).1
    (by simp [aad_const, aad_begin])
  rw [h]
  norm_num [aad_const, aad_begin]

/-! ## C9: vector utilities' treatment of length mismatch -/

/-- C9: on a length mismatch `vec_add` throws `"unequal vector sizes"` while
`vec_equal` returns `false`; on equal lengths `vec_add` returns the
element-wise sum (`v'[i] = v1[i] + v2[i]`) and `vec_equal` returns `true`
exactly when the vectors agree at every position (exact comparison). -/
theorem vec_add_vec_equal_mismatch (v1 v2 : List ℝ) :
    (v1.length ≠ v2.length →
      vec_add v1 v2 = .error "unequal vector sizes" ∧
      vec_equal v1 v2 = false) ∧
    (v1.length = v2.length →
      (vec_add v1 v2 = .ok (List.zipWith (fun x y => x + y) v1 v2) ∧
        ∀ i, i < v1.length →
          (List.zipWith (fun x y => x + y) v1 v2).getD i 0 =
            v1.getD i 0 + v2.getD i 0) ∧
      (vec_equal v1 v2 = true ↔ v1 = v2)) := by
  refine ⟨fun h => ⟨?_, ?_⟩, fun h => ⟨⟨?_, fun i hi => ?_⟩, ?_⟩⟩
  · simp [vec_add, h]
  · simp [vec_equal, h]
  · simp [vec_add, h]
  · have hz : i < (List.zipWith (fun x y : ℝ => x + y) v1 v2).length := by
      simp [List.length_zipWith, hi, h ▸ hi]
    rw [List.getD_eq_getElem _ _ hz, List.getD_eq_getElem _ _ hi,
      List.getD_eq_getElem _ _ (h ▸ hi), List.getElem_zipWith]
  · simp only [vec_equal, h, ne_eq, not_true_eq_false, if_false,
      decide_eq_true_eq]
    constructor
    · intro hall
      refine List.ext_getElem h (fun n h1 h2 => ?_)
      have := hall n (h ▸ h1)
      rwa [List.getD_eq_getElem _ _ h1, List.getD_eq_getElem _ _ h2] at this
    · intro he
      subst he
      exact fun i _ => rfl

/-- Witness for C9: `add([1,2],[3])` throws and `equal([1,2],[3])` is `false`;
`add([1,2],[3,4]) = [4,6]` and `equal([1,2],[1,2])` is `true`. -/
theorem vec_add_vec_equal_mismatch_witness :
    (vec_add [1, 2] [3] = .error "unequal vector sizes" ∧
      vec_equal [1, 2] [3] = false) ∧
    vec_add [1, 2] [3, 4] = .ok [4, 6] ∧
    vec_equal [(1 : ℝ), 2] [1, 2] = true := by
  refine ⟨(vec_add_vec_equal_mismatch [1, 2] [3]).1 (by norm_num), ?_, ?_⟩
  · have h := ((vec_add_vec_equal_mismatch [1, 2] [3, 4]).2 (by norm_num)).1.1
    rw [h]
    norm_num
  · exact ((vec_add_vec_equal_mismatch [(1 : ℝ), 2] [1, 2]).2
      (by norm_num)).2.mpr rfl

/-! ## C8: construction keeps the tape well-formed -/

/-- Appending a node whose parents are positions of the existing tape and
whose local-derivative list matches its parent list keeps the tape
well-formed. -/
theorem TapeWF_append (t : Tape) (nd : Node) (hWF : TapeWF t)
    (hlen : nd.parents.length = nd.ddparents.length)
    (hp : ∀ p ∈ nd.parents, p < t.length) : TapeWF (t ++ [nd]) := by
  intro n hn
  rw [List.length_append, List.length_singleton] at hn
  rcases Nat.lt_succ_iff_lt_or_eq.mp hn with h | h
  · rw [List.getD_append _ _ _ _ h]
    exact hWF n h
  · subst h
    rw [getD_append_last]
    exact ⟨hlen, hp⟩

/-- C8: every engine operation, applied to a well-formed tape with its
operand nodes on that tape, yields a well-formed tape (on success, for the
fallible ones): the appended node has as many local derivatives as parents,
and each parent sits strictly earlier in the tape. -/
theorem engine_ops_preserve_wf (t : Tape) (i j : Nat) (c : ℝ)
    (hWF : TapeWF t) (hi : i < t.length) (hj : j < t.length) :
    TapeWF aad_begin ∧
    TapeWF (aad_const t c).1 ∧
    TapeWF (aad_add t i j).1 ∧
    TapeWF (aad_sub t i j).1 ∧
    TapeWF (aad_mul t i j).1 ∧
    TapeWF (aad_max t i j).1 ∧
    (∀ t' k, aad_div t i j = .ok (t', k) → TapeWF t') ∧
    (∀ t' k, aad_exp t i = .ok (t', k) → TapeWF t') ∧
    (∀ t' k, aad_log t i = .ok (t', k) → TapeWF t') ∧
    (∀ t' k, aad_pow t i j = .ok (t', k) → TapeWF t') := by
  have hij : ∀ p ∈ [i, j], p < t.length := by
    intro p hp
    rcases List.mem_pair.mp hp with h | h <;> subst h <;> assumption
  have hsing : ∀ p ∈ [i], p < t.length := by
    intro p hp
    rw [List.mem_singleton.mp hp]
    exact hi
  refine ⟨?_, ?_, ?_, ?_, ?_, ?_, ?_, ?_, ?_, ?_⟩
  · intro n hn
    simp [aad_begin] at hn
  · exact TapeWF_append t _ hWF (by simp) (by simp)
  · exact TapeWF_append t _ hWF (by simp) hij
  · exact TapeWF_append t _ hWF (by simp) hij
  · exact TapeWF_append t _ hWF (by simp) hij
  · exact TapeWF_append t _ hWF (by simp) hij
  · intro t' k hok
    by_cases hv : (t.getD j default).value = 0
    · rw [aad_div, if_pos hv] at hok
      exact absurd hok (by simp)
    · rw [aad_div, if_neg hv] at hok
      simp only [Except.ok.injEq, Prod.mk.injEq] at hok
      rw [← hok.1]
      exact TapeWF_append t _ hWF (by simp) hij
  · intro t' k hok
    rw [aad_exp] at hok
    simp only [exp_is_nan, if_false, Except.ok.injEq, Prod.mk.injEq] at hok
    rw [← hok.1]
    exact TapeWF_append t _ hWF (by simp) hsing
  · intro t' k hok
    by_cases hv : log_is_nan (t.getD i default).value
    · rw [aad_log, if_pos hv] at hok
      exact absurd hok (by simp)
    · rw [aad_log, if_neg hv] at hok
      simp only [Except.ok.injEq, Prod.mk.injEq] at hok
      rw [← hok.1]
      exact TapeWF_append t _ hWF (by simp) hsing
  · intro t' k hok
    by_cases hv0 : (t.getD i default).value = 0
    · rw [aad_pow, if_pos hv0] at hok
      simp only [aad_const, Except.ok.injEq, Prod.mk.injEq] at hok
      rw [← hok.1]
      exact TapeWF_append t _ hWF (by simp) (by simp)
    · have hWF1 : TapeWF (t ++
          [{ value := Real.log (t.getD i default).value, parents := [i],
             ddparents := [1 / (t.getD i default).value],
             derivative := none }]) :=
        TapeWF_append t _ hWF (by simp) hsing
      by_cases hvn : log_is_nan (t.getD i default).value
      · rw [aad_pow, if_neg hv0, aad_log, if_pos hvn] at hok
        exact absurd hok (by simp)
      · rw [aad_pow, if_neg hv0, aad_log, if_neg hvn] at hok
        simp only [aad_mul, aad_exp, exp_is_nan, if_false,
          Except.ok.injEq, Prod.mk.injEq] at hok
        rw [← hok.1]
        refine TapeWF_append _ _ ?_ (by simp) ?_
        · refine TapeWF_append _ _ hWF1 (by simp) ?_
          intro p hp
          rcases List.mem_pair.mp hp with h | h <;> subst h <;>
            simp [Nat.lt_succ_of_lt, hj]
        · intro p hp
          rw [List.mem_singleton.mp hp]
          simp

/-- Witness for C8: on the concrete two-constant tape of `constant(2)`,
`constant(3)`, the `add` and `max` operations produce well-formed tapes. -/
theorem engine_ops_preserve_wf_witness :
    TapeWF (aad_add (aad_const (aad_const aad_begin 2).1 3).1 0 1).1 ∧
    TapeWF (aad_max (aad_const (aad_const aad_begin 2).1 3).1 0 1).1 := by
  have hWF : TapeWF (aad_const (aad_const aad_begin 2).1 3).1 := by
    intro n hn
    simp [aad_const, aad_begin] at hn
    interval_cases n <;> simp [aad_const, aad_begin]
  have h := engine_ops_preserve_wf (aad_const (aad_const aad_begin 2).1 3).1
    0 1 5 hWF (by simp [aad_const, aad_begin]) (by simp [aad_const, aad_begin])
  exact ⟨h.2.2.1, h.2.2.2.2.2.1⟩

/-! ## C10: the backtracking loop is only entered with a positive norm -/

theorem vec_norm_nonneg (v : List ℝ) : 0 ≤ vec_norm v :=
  Real.sqrt_nonneg _

/-- If the outer termination check fails with a positive `step`, the norm is
strictly positive: otherwise `step * norm = 0 ≤ 1e-15 * |y|` would have
returned. -/
theorem norm_pos_of_guard (step norm y : ℝ) (_hstep : 0 < step)
    (hnorm : 0 ≤ norm) (hg : ¬ step * norm ≤ (1e-15 : ℝ) * |y|) :
    0 < norm := by
  rcases lt_or_eq_of_le hnorm with h | h
  · exact h
  · exfalso
    apply hg
    rw [← h, mul_zero]
    positivity

/-- The backtracking loop only ever shrinks `step` by halving, so an accepted
step is still positive. -/
theorem gd_inner_pos (f : List ℝ → ℝ × List ℝ) (x : List ℝ) (y : ℝ)
    (direction : List ℝ) (norm : ℝ) :
    ∀ fuel (step : ℝ) (nx : List ℝ) (st : ℝ), 0 < step →
      gd_inner f x y direction norm step fuel = some (.ok (nx, st)) →
      0 < st := by
  intro fuel
  induction fuel with
  | zero =>
    intro step nx st _ h
    exact absurd h (by simp [gd_inner])
  | succ fuel ih =>
    intro step nx st hstep h
    rw [gd_inner] at h
    cases hva : vec_add x (vec_scale direction (step / norm)) with
    | error e =>
      rw [hva] at h
      simp at h
    | ok nx' =>
      rw [hva] at h
      dsimp only at h
      by_cases hcond : y - (f nx').1 > (0.1 : ℝ) * step * norm ∨
          vec_equal x nx' = true
      · rw [if_pos hcond] at h
        simp only [Option.some.injEq, Except.ok.injEq, Prod.mk.injEq] at h
        rw [← h.2]
        exact hstep
      · rw [if_neg hcond] at h
        exact ih (step * (0.5 : ℝ)) nx st
          (mul_pos hstep (by norm_num)) h

/-- With a positive `step`, the norm-checked outer loop never reaches its
division-by-zero poison branch, so it agrees with the source's loop. -/
theorem gd_outer_checked_eq (f : List ℝ → ℝ × List ℝ) (mi : Nat) :
    ∀ fuel (x : List ℝ) (step : ℝ) (iter : Nat), 0 < step →
      gd_outer_checked f x step iter mi fuel =
        gd_outer f x step iter mi fuel := by
  intro fuel
  induction fuel with
  | zero => intro x step iter _; rfl
  | succ fuel ih =>
    intro x step iter hstep
    rw [gd_outer_checked, gd_outer]
    by_cases hguard : step * vec_norm (vec_scale (f x).2 (-1)) ≤
        (1e-15 : ℝ) * |(f x).1| ∨ mi ≤ iter + 1
    · rw [if_pos hguard, if_pos hguard]
    · rw [if_neg hguard, if_neg hguard]
      have hng : ¬ step * vec_norm (vec_scale (f x).2 (-1)) ≤
          (1e-15 : ℝ) * |(f x).1| := fun hc => hguard (Or.inl hc)
      have hnorm : 0 < vec_norm (vec_scale (f x).2 (-1)) :=
        norm_pos_of_guard step _ (f x).1 hstep (vec_norm_nonneg _) hng
      rw [if_neg (not_not_intro hnorm)]
      cases hres : gd_inner f x (f x).1 (vec_scale (f x).2 (-1))
          (vec_norm (vec_scale (f x).2 (-1))) step fuel with
      | none => rfl
      | some r =>
        cases r with
        | error e => rfl
        | ok p =>
          exact ih p.1 (p.2 * (1.1 : ℝ)) (iter + 1)
            (mul_pos (gd_inner_pos f x (f x).1 _ _ fuel step p.1 p.2 hstep
              (by rw [hres])) (by norm_num))

/-- C10: in every run of `gradient_descent_minimize`, whenever the
backtracking inner loop is entered the norm of the descent direction is
strictly positive — had it been `0`, `step * norm = 0 ≤ 1e-15 * |y|` would
already have returned — so the division `step / norm` never divides by zero:
the norm-checked variant of the minimizer is indistinguishable from the
source's. -/
theorem gd_norm_pos_at_inner_entry :
    (∀ (f : List ℝ → ℝ × List ℝ) (guess : List ℝ) (max_iter fuel : Nat),
      gradient_descent_minimize_checked f guess max_iter fuel =
        gradient_descent_minimize f guess max_iter fuel) ∧
    (∀ (f : List ℝ → ℝ × List ℝ) (x : List ℝ) (step : ℝ)
      (iter max_iter : Nat), 0 < step →
      ¬ (step * vec_norm (vec_scale (f x).2 (-1)) ≤
          (1e-15 : ℝ) * |(f x).1| ∨ max_iter ≤ iter + 1) →
      0 < vec_norm (vec_scale (f x).2 (-1))) := by
  constructor
  · intro f guess max_iter fuel
    exact gd_outer_checked_eq f max_iter fuel guess 1 0 one_pos
  · intro f x step iter max_iter hstep hguard
    exact norm_pos_of_guard step _ (f x).1 hstep (vec_norm_nonneg _)
      (fun hc => hguard (Or.inl hc))

/-- The `max_iter` cap in isolation: with `max_iter = 1` the minimizer
returns the initial guess after exactly one outer iteration — the check
`iter >= max_iter` fires on the first pass, before any backtracking —
independent of the tolerance and of the objective.  (The spec's blanket
termination claim for arbitrary objectives is a floating-point property of
the `vec_equal(x, new_x)` underflow exit and is not settled here.) -/
theorem gradient_descent_minimize_maxiter_one (f : List ℝ → ℝ × List ℝ)
    (guess : List ℝ) (fuel : Nat) :
    gradient_descent_minimize f guess 1 (fuel + 1) = some (.ok guess) := by
  rw [gradient_descent_minimize, gd_outer]
  exact if_pos (Or.inr (by omega))

/-- Witness for C10: a concrete run agrees with its checked variant, and at a
concrete state failing the termination check the norm is positive. -/
theorem gd_norm_pos_at_inner_entry_witness :
    gradient_descent_minimize_checked (fun _ => (0, [1])) [0] 2 5 =
      gradient_descent_minimize (fun _ => (0, [1])) [0] 2 5 ∧
    0 < vec_norm (vec_scale
      ((fun (_ : List ℝ) => ((0 : ℝ), [(1 : ℝ)])) [0]).2 (-1)) := by
  have hnorm : vec_norm (vec_scale
      ((fun (_ : List ℝ) => ((0 : ℝ), [(1 : ℝ)])) [0]).2 (-1)) = 1 := by
    show vec_norm (vec_scale [(1 : ℝ)] (-1)) = 1
    rw [show vec_scale [(1 : ℝ)] (-1) = [(-1 : ℝ)] by
      simp [vec_scale]]
    rw [vec_norm]
    norm_num
  constructor
  · exact gd_norm_pos_at_inner_entry.1 (fun _ => (0, [1])) [0] 2 5
  · apply gd_norm_pos_at_inner_entry.2 (fun _ => (0, [1])) [0] 1 0 2 one_pos
    rw [hnorm]
    norm_num

end AadGd
